import Mathlib

/-!
Verification of the Conflict Suite construction / split-assignment / integrity
engine (`carm.data`: `schema.py`, `labeling.py`, `transforms.py`,
`construction.py`, `integrity.py`, `sampling.py`).

Modelling conventions:
* Python `float` literals and arithmetic are modelled as exact rationals (`ℚ`).
  Every property proved here is insensitive to the tie-breaking rule of
  `round`, so `round half up` (Mathlib's `round`) stands in for Python's
  banker's rounding.
* Python `int` is modelled as `Int` (arbitrary precision in both).
* The seeded Mersenne-Twister RNG (`random.Random`) and the cryptographic
  digests (`hashlib.sha1` / `hashlib.sha256`) are modelled as abstract oracle
  functions bundled in `Oracles`; every theorem below is proved for *all*
  oracles, hence in particular for the concrete seeded PRNG streams and the
  real digest functions.
* Python `dict` (insertion ordered) is modelled by association lists
  (`List (κ × α)`), Python `set` by lists considered up to membership.
* The free-form `metadata` mapping and the constant `record_version` field of
  `ConflictExample` carry provenance only — no function verified here reads
  them — so they are elided from the record.
-/

namespace Carm

/- Batteries marks the `Rat` arithmetic operations `@[irreducible]`; re-enable
unfolding so that concrete runs of the pipeline evaluate inside `decide`. -/
unseal Rat.mul Rat.inv Rat.add Rat.sub

/-! ## Enumerations (`schema.py`) -/

inductive Split where
  | train | val | test_id | test_ood_family | test_ood_severity | test_ood_hard_swap
  deriving DecidableEq, Repr, Fintype

def Split.value : Split → String
  | .train => "train"
  | .val => "val"
  | .test_id => "test_id"
  | .test_ood_family => "test_ood_family"
  | .test_ood_severity => "test_ood_severity"
  | .test_ood_hard_swap => "test_ood_hard_swap"

inductive Family where
  | none | existence | count | attribute_color
  deriving DecidableEq, Repr

def Family.value : Family → String
  | .none => "none"
  | .existence => "existence"
  | .count => "count"
  | .attribute_color => "attribute_color"

inductive Operator where
  | clean | swap_easy | swap_hard | text_edit | vision_corrupt | both
  deriving DecidableEq, Repr

def Operator.value : Operator → String
  | .clean => "clean"
  | .swap_easy => "swap_easy"
  | .swap_hard => "swap_hard"
  | .text_edit => "text_edit"
  | .vision_corrupt => "vision_corrupt"
  | .both => "both"

inductive CorruptModality where
  | none | vision | text | both
  deriving DecidableEq, Repr

def CorruptModality.value : CorruptModality → String
  | .none => "none"
  | .vision => "vision"
  | .text => "text"
  | .both => "both"

inductive EvidenceModality where
  | vision_required | text_required | both | either
  deriving DecidableEq, Repr, Fintype

inductive AnswerType where
  | boolean | integer | color | unknown
  deriving DecidableEq, Repr

inductive Action where
  | trust_vision | trust_text | require_agreement | abstain
  deriving DecidableEq, Repr

/-! ## The unit record (`schema.py::ConflictExample`) -/

structure ConflictExample where
  example_id : String
  base_id : String
  variant_id : String
  image_path : String
  text_input : String
  question : String
  gold_answer : String
  split : Split
  family : Family
  op : Operator
  corrupt_modality : CorruptModality
  severity : Int
  answer_type : AnswerType
  oracle_action : Action
  source_image_id : Option String := Option.none
  template_id : Option String := Option.none
  evidence_modality : EvidenceModality := .either
  heldout_family_flag : Bool := false
  heldout_severity_flag : Bool := false
  hard_swap_flag : Bool := false
  deriving DecidableEq, Repr

instance : Inhabited ConflictExample where
  default :=
    { example_id := "", base_id := "", variant_id := "", image_path := ""
      text_input := "", question := "", gold_answer := ""
      split := .train, family := .none, op := .clean
      corrupt_modality := .none, severity := 0, answer_type := .unknown
      oracle_action := .require_agreement }

/-! ## Oracle labeling (`labeling.py`)

`labeling.py` as committed defines a two-argument, evidence-aware lookup table
`ORACLE_ACTION_TABLE : dict[tuple[EvidenceModality, CorruptedModality], Action]`
and `derive_oracle_action(evidence_modality, corrupted_modality)` as a plain
dict lookup.  The table has no key with corrupted modality `both`, so the dict
lookup is partial (a missing key raises `KeyError`); we model it with `Option`.
-/

def ORACLE_ACTION_TABLE : EvidenceModality → CorruptModality → Option Action
  | .vision_required, .none => some .trust_vision
  | .text_required, .none => some .trust_text
  | .both, .none => some .require_agreement
  | .either, .none => some .require_agreement
  | .vision_required, .vision => some .abstain
  | .text_required, .vision => some .trust_text
  | .both, .vision => some .abstain
  | .either, .vision => some .trust_text
  | .vision_required, .text => some .trust_vision
  | .text_required, .text => some .abstain
  | .both, .text => some .abstain
  | .either, .text => some .trust_vision
  | _, .both => Option.none

/-- `labeling.py::derive_oracle_action` exactly as committed: a lookup in
`ORACLE_ACTION_TABLE` over the pair `(evidence_modality, corrupted_modality)`.
`none` models the `KeyError` raised on the four absent `both`-corruption keys. -/
def derive_oracle_action_code (evidence_modality : EvidenceModality)
    (corrupted_modality : CorruptModality) : Option Action :=
  ORACLE_ACTION_TABLE evidence_modality corrupted_modality

/-- Modelled from the spec: the one-argument oracle policy
`derive_oracle_action(corrupt_modality, is_ambiguous=False)` that every caller
in the repository (`transforms.py`, `construction.py`, `vqa_coco.py`,
`tests/fixtures.py`, `tests/test_labeling.py`) imports from
`carm.data.labeling`; the committed `labeling.py` does not provide this
signature (see the theorems on `derive_oracle_action_code`). -/
def derive_oracle_action (corrupt_modality : CorruptModality)
    (is_ambiguous : Bool) : Action :=
  if is_ambiguous || corrupt_modality = CorruptModality.both then .abstain
  else if corrupt_modality = CorruptModality.text then .trust_vision
  else if corrupt_modality = CorruptModality.vision then .trust_text
  else .require_agreement

/-! ### Reliability targets (`labeling.py::derive_reliability_target`) -/

structure ReliabilityTarget where
  r_v : ℚ
  r_t : ℚ
  deriving DecidableEq, Repr

def MAX_SEVERITY_DEFAULT : Int := 3

/-- `labeling.py::_base_reliability`. -/
def base_reliability : EvidenceModality → ℚ × ℚ
  | .vision_required => (1, 0)
  | .text_required => (0, 1)
  | .both => (1, 1)
  | .either => (1/2, 1/2)

/-- Python `round(x, 4)` modelled over `ℚ`; the tie rule is irrelevant to the
claims proved here (see the file header). -/
def roundTo4 (x : ℚ) : ℚ := (round (x * 10000) : ℤ) / 10000

/-- `labeling.py::derive_reliability_target`. -/
def derive_reliability_target (evidence_modality : EvidenceModality)
    (corrupted_modality : CorruptModality) (severity : Int)
    (max_severity : Int) : ReliabilityTarget :=
  let rv := (base_reliability evidence_modality).1
  let rt := (base_reliability evidence_modality).2
  let sev : Int := max 0 (min severity max_severity)
  let penalty : ℚ :=
    if 0 < max_severity then max (1/5) ((sev : ℚ) / (max_severity : ℚ)) else 0
  let rv' := if corrupted_modality = CorruptModality.vision
    then max (1/20) (rv * (1 - penalty)) else rv
  let rt' := if corrupted_modality = CorruptModality.text
    then max (1/20) (rt * (1 - penalty)) else rt
  ⟨roundTo4 rv', roundTo4 rt'⟩

/-! ## Generic list helpers

Python's stable `sorted` is modelled by a stable insertion sort, Python's
`dict`/`set` first-occurrence deduplication by `pyDedup`. -/

def insertSorted {α : Type} (le : α → α → Bool) (x : α) : List α → List α
  | [] => [x]
  | y :: ys => if le x y then x :: y :: ys else y :: insertSorted le x ys

def sortBy {α : Type} (le : α → α → Bool) (l : List α) : List α :=
  l.foldr (insertSorted le) []

/-- Lexicographic code-point comparison (the order Python's `sorted` and `<`
use on `str`, and Lean's `String` order); written out explicitly so that it
evaluates inside the kernel. -/
def charListLt : List Char → List Char → Bool
  | [], [] => false
  | [], _ :: _ => true
  | _ :: _, [] => false
  | a :: as, b :: bs =>
    if a.toNat < b.toNat then true
    else if b.toNat < a.toNat then false
    else charListLt as bs

def pyStrLt (a b : String) : Bool := charListLt a.toList b.toList

def strLe (a b : String) : Bool := !(pyStrLt b a)

def sortStrings (l : List String) : List String := sortBy strLe l

/-- First-occurrence deduplication (Python `dict.fromkeys` / insertion-ordered
set semantics). -/
def pyDedup {α : Type} [DecidableEq α] (l : List α) : List α :=
  (l.foldl (fun acc x => if x ∈ acc then acc else x :: acc) []).reverse

/-- Python `x or default` on an optional string (`None` and `""` are falsy). -/
def pyOrStr (o : Option String) (d : String) : String :=
  match o with
  | some s => if s = "" then d else s
  | Option.none => d

/-- Python truthiness of an optional string. -/
def pyTruthyStr (o : Option String) : Bool :=
  match o with
  | some s => !(s = "")
  | Option.none => false

def okBool {ε α : Type} : Except ε α → Bool
  | .ok _ => true
  | .error _ => false

/-! ## Split-integrity validator (`integrity.py`) -/

/-- `construction.py::infer_source_image_id` — the portion of the image path
before the first `|` delimiter. -/
def infer_source_image_id (image_path : String) : String :=
  (image_path.splitOn "|").headD ""

/-- `ex.source_image_id or ex.image_path.split("|")[0]`
(`integrity.py` line 52 and, identically, the source lookup of
`construction.py::_source_split` / `_assign_splits`). -/
def sourceKey (ex : ConflictExample) : String :=
  pyOrStr ex.source_image_id (infer_source_image_id ex.image_path)

def idSplits : List Split := [.train, .val, .test_id]

/-- The per-row checks of `integrity.py::validate_split_integrity`
(lines 44–86), in source order, each paired with its error message; the first
check whose condition holds raises. -/
def rowChecks (hf : Option Family) (hs : Int) (seen : List String)
    (ex : ConflictExample) : List (Bool × String) :=
  [ (decide (ex.example_id ∈ seen),
      "Duplicate example_id: " ++ ex.example_id),
    (decide (ex.corrupt_modality = CorruptModality.none ∧ ex.severity ≠ 0),
      "Severity must be 0 for non-corrupted examples: " ++ ex.example_id),
    (decide (ex.split ∈ idSplits) && ex.heldout_family_flag,
      "heldout_family_flag cannot be true in ID splits: " ++ ex.example_id),
    (decide (ex.split ∈ idSplits) && ex.heldout_severity_flag,
      "heldout_severity_flag cannot be true in ID splits: " ++ ex.example_id),
    (hf.isSome && decide (ex.split = Split.test_ood_family)
        && decide (some ex.family ≠ hf),
      "OOD-family split contains non-heldout family example: " ++ ex.example_id),
    (hf.isSome && decide (ex.split = Split.test_ood_family)
        && !ex.heldout_family_flag,
      "OOD-family example missing heldout_family_flag: " ++ ex.example_id),
    (decide (ex.split = Split.test_ood_severity)
        && decide (ex.corrupt_modality = CorruptModality.none ∨ ex.severity < hs),
      "OOD-severity split has invalid example (needs corrupted severity >= "
        ++ toString hs ++ "): " ++ ex.example_id),
    (decide (ex.split = Split.test_ood_severity) && !ex.heldout_severity_flag,
      "OOD-severity example missing heldout_severity_flag: " ++ ex.example_id) ]

def rowError (hf : Option Family) (hs : Int) (seen : List String)
    (ex : ConflictExample) : Option String :=
  ((rowChecks hf hs seen ex).find? (fun c => c.1)).map (fun c => c.2)

/-- Accumulator of the single pass of `validate_split_integrity`: the seen-id
set and the per-split source-image / template identifier sets (lists up to
membership). -/
structure VState where
  seen : List String
  images : List (Split × String)
  templates : List (Split × String)
  deriving Repr

def VState.empty : VState := ⟨[], [], []⟩

/-- One step of the validator pass: run the row checks, then record the row's
id, source key and (truthy) template id.  In the source the set insertions are
interleaved with the checks, but no check reads the sets it inserts into for
the current row, so performing all insertions after the checks is
behaviourally identical. -/
def validateFold (hf : Option Family) (hs : Int) :
    VState → List ConflictExample → Except String VState
  | st, [] => .ok st
  | st, ex :: rest =>
    match rowError hf hs st.seen ex with
    | some e => .error e
    | Option.none =>
        validateFold hf hs
          { seen := ex.example_id :: st.seen
            images := (ex.split, sourceKey ex) :: st.images
            templates :=
              if pyTruthyStr ex.template_id then
                (ex.split, ex.template_id.getD "") :: st.templates
              else st.templates }
          rest

def imagesOf (pairs : List (Split × String)) (s : Split) : List String :=
  (pairs.filter (fun p => p.1 = s)).map (fun p => p.2)

def idPairs : List (Split × Split) :=
  [(.train, .val), (.train, .test_id), (.val, .test_id)]

def overlapOf (l r : List String) : List String :=
  l.filter (fun s => r.contains s)

/-- `sorted(overlap)[0]`: the lexicographically smallest member. -/
def strMin (l : List String) : Option String :=
  l.foldl (fun acc s =>
    match acc with
    | Option.none => some s
    | some t => some (if pyStrLt s t then s else t)) Option.none

/-- The pairwise in-distribution leakage check (`integrity.py` lines 88–106):
first nonempty intersection raises, naming the smallest offending member. -/
def leakErrorAux (kind : String) (pairs : List (Split × String)) :
    List (Split × Split) → Option String
  | [] => Option.none
  | (left, right) :: rest =>
    let overlap := overlapOf (imagesOf pairs left) (imagesOf pairs right)
    if overlap.isEmpty then leakErrorAux kind pairs rest
    else some (kind ++ " leakage between " ++ left.value ++ " and "
      ++ right.value ++ ": " ++ (strMin overlap).getD "")

/-- `integrity.py::compute_manifest_hash`; the SHA-256 hex digest is the
abstract parameter `sha256hex`. -/
def compute_manifest_hash (sha256hex : String → String)
    (example_ids : List String) : String :=
  sha256hex (String.intercalate "\n" (sortStrings example_ids))

def splitIdsFor (examples : List ConflictExample) (s : Split) : List String :=
  (examples.filter (fun ex => ex.split = s)).map (fun ex => ex.example_id)

/-- The splits occurring in the suite, in first-occurrence order (keys of the
`defaultdict` in `integrity.py::_hash_by_split`). -/
def presentSplits (examples : List ConflictExample) : List Split :=
  pyDedup (examples.map (fun ex => ex.split))

/-- `integrity.py::_hash_by_split`. -/
def hash_by_split (sha256hex : String → String)
    (examples : List ConflictExample) : List (String × String) :=
  (sortBy (fun a b => strLe a.value b.value) (presentSplits examples)).map
    (fun s => (s.value, compute_manifest_hash sha256hex (splitIdsFor examples s)))

/-- `integrity.py::_count_by_split`. -/
def count_by_split (examples : List ConflictExample) : List (String × Nat) :=
  (sortBy (fun a b => strLe a.value b.value) (presentSplits examples)).map
    (fun s => (s.value, (examples.filter (fun ex => ex.split = s)).length))

structure ValidateManifest where
  hashes : List (String × String)
  counts : List (String × Nat)
  total_examples : Nat
  deriving DecidableEq, Repr

/-- `integrity.py::validate_split_integrity`.  Raised `IntegrityError`s are
modelled as `Except.error` carrying the message. -/
def validate_split_integrity (sha256hex : String → String)
    (examples : List ConflictExample) (heldout_family : Option Family)
    (heldout_severity : Int) (enforce_template_disjointness : Bool) :
    Except String ValidateManifest :=
  match validateFold heldout_family heldout_severity VState.empty examples with
  | .error e => .error e
  | .ok st =>
    match leakErrorAux "Image-source" st.images idPairs with
    | some e => .error e
    | Option.none =>
      match (if enforce_template_disjointness then
          leakErrorAux "Template" st.templates idPairs else Option.none) with
      | some e => .error e
      | Option.none =>
        .ok ⟨hash_by_split sha256hex examples, count_by_split examples,
          examples.length⟩

/-! ### Comparison validator for C10: `validate_split_integrity` with the two
OOD-family checks (`integrity.py` lines 68–76) deleted, all other checks
verbatim. -/

def rowChecksNoFamily (hs : Int) (seen : List String)
    (ex : ConflictExample) : List (Bool × String) :=
  [ (decide (ex.example_id ∈ seen),
      "Duplicate example_id: " ++ ex.example_id),
    (decide (ex.corrupt_modality = CorruptModality.none ∧ ex.severity ≠ 0),
      "Severity must be 0 for non-corrupted examples: " ++ ex.example_id),
    (decide (ex.split ∈ idSplits) && ex.heldout_family_flag,
      "heldout_family_flag cannot be true in ID splits: " ++ ex.example_id),
    (decide (ex.split ∈ idSplits) && ex.heldout_severity_flag,
      "heldout_severity_flag cannot be true in ID splits: " ++ ex.example_id),
    (decide (ex.split = Split.test_ood_severity)
        && decide (ex.corrupt_modality = CorruptModality.none ∨ ex.severity < hs),
      "OOD-severity split has invalid example (needs corrupted severity >= "
        ++ toString hs ++ "): " ++ ex.example_id),
    (decide (ex.split = Split.test_ood_severity) && !ex.heldout_severity_flag,
      "OOD-severity example missing heldout_severity_flag: " ++ ex.example_id) ]

def rowErrorNoFamily (hs : Int) (seen : List String)
    (ex : ConflictExample) : Option String :=
  ((rowChecksNoFamily hs seen ex).find? (fun c => c.1)).map (fun c => c.2)

def validateFoldNoFamily (hs : Int) :
    VState → List ConflictExample → Except String VState
  | st, [] => .ok st
  | st, ex :: rest =>
    match rowErrorNoFamily hs st.seen ex with
    | some e => .error e
    | Option.none =>
        validateFoldNoFamily hs
          { seen := ex.example_id :: st.seen
            images := (ex.split, sourceKey ex) :: st.images
            templates :=
              if pyTruthyStr ex.template_id then
                (ex.split, ex.template_id.getD "") :: st.templates
              else st.templates }
          rest

def validate_split_integrity_no_family_checks (sha256hex : String → String)
    (examples : List ConflictExample) (heldout_severity : Int)
    (enforce_template_disjointness : Bool) : Except String ValidateManifest :=
  match validateFoldNoFamily heldout_severity VState.empty examples with
  | .error e => .error e
  | .ok st =>
    match leakErrorAux "Image-source" st.images idPairs with
    | some e => .error e
    | Option.none =>
      match (if enforce_template_disjointness then
          leakErrorAux "Template" st.templates idPairs else Option.none) with
      | some e => .error e
      | Option.none =>
        .ok ⟨hash_by_split sha256hex examples, count_by_split examples,
          examples.length⟩

/-- A relabelling that may change only the `family` and `heldout_family_flag`
fields, and only on rows whose split is `test_ood_family` (all other rows are
returned unchanged). -/
def familyOnlyRelabel (f : ConflictExample → ConflictExample) : Prop :=
  ∀ ex : ConflictExample,
    ((f ex).example_id = ex.example_id ∧
     (f ex).base_id = ex.base_id ∧
     (f ex).variant_id = ex.variant_id ∧
     (f ex).image_path = ex.image_path ∧
     (f ex).text_input = ex.text_input ∧
     (f ex).question = ex.question ∧
     (f ex).gold_answer = ex.gold_answer ∧
     (f ex).split = ex.split ∧
     (f ex).op = ex.op ∧
     (f ex).corrupt_modality = ex.corrupt_modality ∧
     (f ex).severity = ex.severity ∧
     (f ex).answer_type = ex.answer_type ∧
     (f ex).oracle_action = ex.oracle_action ∧
     (f ex).source_image_id = ex.source_image_id ∧
     (f ex).template_id = ex.template_id ∧
     (f ex).evidence_modality = ex.evidence_modality ∧
     (f ex).heldout_severity_flag = ex.heldout_severity_flag ∧
     (f ex).hard_swap_flag = ex.hard_swap_flag) ∧
    (ex.split ≠ Split.test_ood_family → f ex = ex)

/-! ### Concrete rows used by the closed theorems on the validator -/

/-- A corrupted-text row with severity `0` (the reverse direction of the
severity invariant). -/
def rowTextSev0 : ConflictExample :=
  { example_id := "b1::swap_easy", base_id := "b1", variant_id := "swap_easy"
    image_path := "img1", text_input := "two dogs", question := "how many"
    gold_answer := "2", split := .train, family := .count, op := .swap_easy
    corrupt_modality := .text, severity := 0, answer_type := .integer
    oracle_action := .trust_vision, source_image_id := some "s1" }

/-- A clean row with nonzero severity (violates the forward severity check). -/
def rowNoneSev2 : ConflictExample :=
  { example_id := "b2::clean", base_id := "b2", variant_id := "clean"
    image_path := "img2", text_input := "a cat", question := "what"
    gold_answer := "cat", split := .train, family := .existence, op := .clean
    corrupt_modality := .none, severity := 2, answer_type := .boolean
    oracle_action := .require_agreement, source_image_id := some "s2" }

/-- A row in the OOD-family split whose family and flag are arbitrary; used to
exercise the skipped checks of C10. -/
def rowOodFamily : ConflictExample :=
  { example_id := "b3::text_edit", base_id := "b3", variant_id := "text_edit"
    image_path := "img3", text_input := "a bike", question := "is there"
    gold_answer := "yes", split := .test_ood_family, family := .count
    op := .text_edit, corrupt_modality := .text, severity := 1
    answer_type := .boolean, oracle_action := .trust_vision
    source_image_id := some "s3", heldout_family_flag := false }

/-- The concrete relabelling used by the C10 witness: flip the family and the
heldout-family flag of every `test_ood_family` row. -/
def relabelOodFamily (ex : ConflictExample) : ConflictExample :=
  if ex.split = Split.test_ood_family then
    { ex with family := Family.none,
              heldout_family_flag := !ex.heldout_family_flag }
  else ex

/-! ## Text processing (`transforms.py`)

Python's `re` patterns over ASCII text: `[a-z0-9]+` tokenization, `\b`
word-boundary semantics (XOR of word-char-ness of the two adjacent
positions, word chars being `[A-Za-z0-9_]`), case-insensitive literal word
search, and first-occurrence substitution. -/

def asciiLower (c : Char) : Char :=
  if 'A' ≤ c ∧ c ≤ 'Z' then Char.ofNat (c.toNat + 32) else c

def isAlnumLower (c : Char) : Bool :=
  ('a' ≤ c && c ≤ 'z') || ('0' ≤ c && c ≤ '9')

def splitRunsAux (p : Char → Bool) : List Char → List Char → List (List Char)
  | [], acc => if acc.isEmpty then [] else [acc.reverse]
  | c :: cs, acc =>
    if p c then splitRunsAux p cs (c :: acc)
    else if acc.isEmpty then splitRunsAux p cs []
    else acc.reverse :: splitRunsAux p cs []

/-- `re.findall(r"[a-z0-9]+", text.lower())`: the maximal alphanumeric runs of
the (ASCII-)lowered text. -/
def tokenizeAlnum (s : String) : List String :=
  (splitRunsAux isAlnumLower (s.toList.map asciiLower) []).map
    (fun cs => String.mk cs)

/-- `transforms.py::STOPWORDS`. -/
def STOPWORDS : List String :=
  ["a", "an", "the", "is", "are", "on", "in", "at", "of", "to", "for",
   "there", "this", "that", "these", "those"]

/-- `construction.py::_noun_like_tokens` (the memoising cache is semantically
the identity and is elided). -/
def noun_like_tokens (text : String) : Finset String :=
  ((tokenizeAlnum text).filter
    (fun t => !(decide (t ∈ STOPWORDS)) && decide (2 < t.length))).toFinset

/-- `construction.py::_jaccard_tokens`. -/
def jaccard_tokens (a b : Finset String) : ℚ :=
  if a = ∅ ∧ b = ∅ then 1
  else ((a ∩ b).card : ℚ) / ((max 1 (a ∪ b).card : Nat) : ℚ)

def isWordChar (c : Char) : Bool := c.isAlpha || c.isDigit || c = '_'

def isWordAt (s : List Char) (i : Nat) : Bool :=
  match s[i]? with
  | some c => isWordChar c
  | Option.none => false

/-- `\b` at position `i`: exactly one of the characters around the position is
a word character. -/
def boundaryAt (s : List Char) (i : Nat) : Bool :=
  (if i = 0 then false else isWordAt s (i - 1)) != isWordAt s i

/-- Case-insensitive literal match of the (lowercase) word `w` at position
`i`. -/
def matchCIAt (s : List Char) (w : List Char) (i : Nat) : Bool :=
  decide (((s.drop i).take w.length).map asciiLower = w)

/-- Leftmost case-insensitive word-bounded occurrence of `w`
(`re.search(rf"\b{w}\b", text, re.IGNORECASE)`). -/
def findWordCI (s : List Char) (w : List Char) : Option Nat :=
  (List.range (s.length + 1)).find? (fun i =>
    boundaryAt s i && matchCIAt s w i && boundaryAt s (i + w.length))

/-- `re.sub(rf"\b{w}\b", repl, text, count=1, re.IGNORECASE)`. -/
def subFirstWordCI (s : List Char) (w : List Char) (repl : List Char) :
    List Char :=
  match findWordCI s w with
  | some i => s.take i ++ repl ++ s.drop (i + w.length)
  | Option.none => s

def countDigitsFrom (s : List Char) (i : Nat) : Nat :=
  ((s.drop i).takeWhile Char.isDigit).length

/-- Leftmost match of `\b\d+\b`: a maximal digit run with word boundaries on
both sides (backtracking inside the run can never restore a boundary, so the
match is exactly a maximal run). -/
def findDigitRun (s : List Char) : Option Nat :=
  (List.range (s.length + 1)).find? (fun i =>
    boundaryAt s i
      && (match s[i]? with
          | some c => c.isDigit
          | Option.none => false)
      && boundaryAt s (i + countDigitsFrom s i))

/-- `transforms.py::NUMBER_WORDS` in insertion order. -/
def NUMBER_WORDS : List (String × Nat) :=
  [("zero", 0), ("one", 1), ("two", 2), ("three", 3), ("four", 4),
   ("five", 5), ("six", 6), ("seven", 7), ("eight", 8), ("nine", 9),
   ("ten", 10)]

def numberWordLoop (s : List Char) : List (String × Nat) → Option (List Char)
  | [] => Option.none
  | (w, n) :: rest =>
    match findWordCI s w.toList with
    | some _ =>
      let repl_n : Nat := if n < 10 then n + 1 else n - 1
      let repl_w : String :=
        (((NUMBER_WORDS.find? (fun p => p.2 = repl_n)).map (fun p => p.1)).getD
          "one")
      some (subFirstWordCI s w.toList repl_w.toList)
    | Option.none => numberWordLoop s rest

/-- `transforms.py::_replace_first_number_token`. -/
def replace_first_number_token (text : String) : String × Bool :=
  let s := text.toList
  match findDigitRun s with
  | some i =>
    let len := countDigitsFrom s i
    let n : Nat := ((String.mk ((s.drop i).take len)).toNat?).getD 0
    let repl : Nat := if n < 99 then n + 1 else n - 1
    (String.mk (s.take i ++ (toString repl).toList ++ s.drop (i + len)), true)
  | Option.none =>
    match numberWordLoop s NUMBER_WORDS with
    | some out => (String.mk out, true)
    | Option.none => (text, false)

/-- Python `"  " -> " "` replacement (`str.replace`, non-overlapping left to
right). -/
def pyReplaceDoubleSpace : List Char → List Char
  | ' ' :: ' ' :: rest => ' ' :: pyReplaceDoubleSpace rest
  | c :: rest => c :: pyReplaceDoubleSpace rest
  | [] => []

/-- Python `str.strip()` (ASCII whitespace). -/
def pyStrip (s : List Char) : List Char :=
  ((s.dropWhile Char.isWhitespace).reverse.dropWhile Char.isWhitespace).reverse

/-- Python `str.rstrip('.')`. -/
def pyRstripDot (s : List Char) : List Char :=
  (s.reverse.dropWhile (fun c => c = '.')).reverse

/-- The auxiliary-verb alternation of `transforms.py::_flip_negation`, in
pattern order. -/
def AUX_WORDS : List String :=
  ["is", "are", "was", "were", "has", "have", "do", "does", "did", "can"]

/-- Leftmost match end of `\b(is|are|...|can)\b` (alternatives tried in
pattern order at each position). -/
def findAuxEnd (s : List Char) : Option Nat :=
  (List.range (s.length + 1)).findSome? (fun i =>
    AUX_WORDS.findSome? (fun w =>
      if boundaryAt s i && matchCIAt s w.toList i
          && boundaryAt s (i + w.length) then some (i + w.length)
      else Option.none))

/-- `transforms.py::_flip_negation`. -/
def flip_negation (text : String) : String :=
  let s := text.toList
  match findWordCI s "not".toList with
  | some i =>
    String.mk (pyStrip (pyReplaceDoubleSpace (s.take i ++ s.drop (i + 3))))
  | Option.none =>
    match findAuxEnd s with
    | some e => String.mk (s.take e ++ " not".toList ++ s.drop e)
    | Option.none => "not " ++ text

/-- `transforms.py::_edit_color`; the seeded `random.Random(seed).choice` is
the abstract oracle `chooseColor` (only ever applied to nonempty lists). -/
def edit_colorLoop (chooseColor : List String → String) (s : List Char)
    (text : String) (color_vocab : List String) :
    List String → Option String
  | [] => Option.none
  | color :: rest =>
    match findWordCI s color.toList with
    | some i =>
      let alternatives := color_vocab.filter (fun c => !(c = color))
      if alternatives.isEmpty then some text
      else some (String.mk (s.take i ++ (chooseColor alternatives).toList
        ++ s.drop (i + color.length)))
    | Option.none => edit_colorLoop chooseColor s text color_vocab rest

def edit_color (chooseColor : List String → String) (text : String)
    (color_vocab : List String) : String :=
  let s := text.toList
  match edit_colorLoop chooseColor s text color_vocab color_vocab with
  | some out => out
  | Option.none =>
    let replacement :=
      if color_vocab.isEmpty then "red" else chooseColor color_vocab
    String.mk (pyRstripDot s) ++ " " ++ replacement ++ "."

/-! ## Transform operators (`transforms.py`)

The metadata payloads recorded by the source (swap seed, edit family, vision
recipe) live in the elided `metadata` mapping.  `oracle_action` is re-derived
through the one-argument policy the whole pipeline imports (see
`derive_oracle_action`). -/

/-- `transforms.py::caption_swap`. -/
def caption_swap (ex : ConflictExample) (donor_text : String)
    (operator : Operator) (hard_swap_flag : Bool) (seed : Int) :
    ConflictExample :=
  let _ := seed
  let suffix := if operator = Operator.swap_hard then "swap_hard" else "swap_easy"
  { ex with
    example_id := ex.base_id ++ "::" ++ suffix
    variant_id := suffix
    text_input := donor_text
    op := operator
    corrupt_modality := CorruptModality.text
    severity := 1
    hard_swap_flag := hard_swap_flag
    oracle_action := derive_oracle_action CorruptModality.text false }

/-- `transforms.py::text_edit`. -/
def text_edit (chooseColor : List String → String) (ex : ConflictExample)
    (color_vocab : List String) (seed : Int) : ConflictExample :=
  let _ := seed
  let edited_text :=
    if ex.family = Family.count then
      let r := replace_first_number_token ex.text_input
      if r.2 then r.1
      else String.mk (pyRstripDot r.1.toList) ++ " There are 3 objects."
    else if ex.family = Family.existence then
      flip_negation ex.text_input
    else if ex.family = Family.attribute_color then
      edit_color chooseColor ex.text_input color_vocab
    else ex.text_input
  { ex with
    example_id := ex.base_id ++ "::text_edit"
    variant_id := "text_edit"
    text_input := edited_text
    op := Operator.text_edit
    corrupt_modality := CorruptModality.text
    severity := 1
    oracle_action := derive_oracle_action CorruptModality.text false }

/-- `transforms.py::vision_corrupt` (the recipe payload string goes to the
elided metadata; pixels are untouched by design). -/
def vision_corrupt (ex : ConflictExample) (corruption_type : String)
    (severity : Int) : ConflictExample :=
  let _ := corruption_type
  let variant_id := "vision_corrupt_s" ++ toString severity
  { ex with
    example_id := ex.base_id ++ "::" ++ variant_id
    variant_id := variant_id
    op := Operator.vision_corrupt
    corrupt_modality := CorruptModality.vision
    severity := severity
    oracle_action := derive_oracle_action CorruptModality.vision false }

/-! ## Suite construction (`construction.py`) -/

/-- The RNG draws and digest primitives of the pipeline, abstracted: every
theorem holds for all oracles, hence for the concrete seeded Mersenne-Twister
streams and the real SHA-1/SHA-256 digests.  The choice functions are only
ever applied to nonempty lists. -/
structure Oracles where
  shuffle : List String → List String
  chooseEx : List ConflictExample → ConflictExample
  chooseColor : List String → String
  sha1hex : String → String
  sha256hex : String → String

/-- The construction parameters of `build_conflict_suite`, with the Python
`None` defaults already resolved to their documented values. -/
structure BuildConfig where
  seed : Int := 7
  held_out_family : Family := .attribute_color
  held_out_severity : Int := 3
  split_ratios : List (String × ℚ) :=
    [("train", 7/10), ("val", 3/20), ("test_id", 3/20)]
  vision_corruption_type : String := "occlusion"
  vision_severities : List Int := [1, 2, 3]
  color_vocab : List String :=
    ["red", "blue", "green", "yellow", "black", "white", "brown", "gray"]
  hard_swap_jaccard_min : ℚ := 1/5
  hard_swap_jaccard_max : ℚ := 7/10
  include_both_variants : Bool := false
  enable_ood_hard_swap : Bool := false
  enforce_template_disjointness : Bool := false

/-- `construction.py::infer_template_id`: first 12 hex characters of the SHA-1
of the whitespace-normalised question (digest abstracted). -/
def infer_template_id (sha1hex : String → String) (question : String) : String :=
  (sha1hex (String.intercalate " " (tokenizeAlnum question))).take 12

/-- Python `int(q)` (truncation toward zero). -/
def pyIntOfRat (q : ℚ) : Int := if q < 0 then q.ceil else q.floor

def pySliceIdx (len : Nat) (i : Int) : Nat :=
  if i < 0 then (max 0 ((len : Int) + i)).toNat else (min i (len : Int)).toNat

/-- Python `l[a:b]`. -/
def pySlice {α : Type} (l : List α) (a b : Int) : List α :=
  (l.take (pySliceIdx l.length b)).drop (pySliceIdx l.length a)

def ratioLookup (ratios : List (String × ℚ)) (key : String) (d : ℚ) : ℚ :=
  (((ratios.find? (fun p => p.1 = key)).map (fun p => p.2)).getD d)

/-- `construction.py::_set_clean_defaults`. -/
def set_clean_defaults (sha1hex : String → String)
    (ex : ConflictExample) : ConflictExample :=
  { ex with
    example_id := ex.base_id ++ "::clean"
    variant_id := "clean"
    op := Operator.clean
    corrupt_modality := CorruptModality.none
    severity := 0
    hard_swap_flag := false
    heldout_family_flag := false
    heldout_severity_flag := false
    split := Split.train
    source_image_id := some (pyOrStr ex.source_image_id
      (infer_source_image_id ex.image_path))
    template_id := some (pyOrStr ex.template_id
      (infer_template_id sha1hex ex.question))
    oracle_action := derive_oracle_action CorruptModality.none false }

/-- The input-normalisation step of `build_conflict_suite` (lines 184–191). -/
def normalizeBase (sha1hex : String → String)
    (ex : ConflictExample) : ConflictExample :=
  let clean_ex :=
    if ex.op ≠ Operator.clean then
      { ex with op := Operator.clean, corrupt_modality := CorruptModality.none,
                severity := 0 }
    else ex
  set_clean_defaults sha1hex clean_ex

/-- `construction.py::_source_split` as the source-to-bucket assignment map
(the Python dict is total on every key it is ever queried with). -/
def source_split (shuffle : List String → List String)
    (examples : List ConflictExample) (ratios : List (String × ℚ)) :
    String → Split :=
  let source_ids := sortStrings (pyDedup (examples.map sourceKey))
  let shuffled := shuffle source_ids
  let n : Int := source_ids.length
  let n_train := pyIntOfRat ((n : ℚ) * ratioLookup ratios "train" (7/10))
  let n_val := pyIntOfRat ((n : ℚ) * ratioLookup ratios "val" (3/20))
  let train_sources := pySlice shuffled 0 n_train
  let val_sources := pySlice shuffled n_train (n_train + n_val)
  fun source =>
    if source ∈ train_sources then Split.train
    else if source ∈ val_sources then Split.val
    else Split.test_id

/-- The per-row body of `construction.py::_assign_splits` (lines 106–129):
inherit the source's bucket, then the override chain
family > severity > hard-swap, first match wins. -/
def assignRow (sm : String → Split) (held_out_family : Family)
    (held_out_severity : Int) (enable_ood_hard_swap : Bool)
    (ex : ConflictExample) : ConflictExample :=
  let split0 := sm (sourceKey ex)
  if ex.family = held_out_family then
    { ex with split := Split.test_ood_family, heldout_family_flag := true,
              heldout_severity_flag := false }
  else if ex.corrupt_modality ≠ CorruptModality.none
      ∧ held_out_severity ≤ ex.severity then
    { ex with split := Split.test_ood_severity, heldout_family_flag := false,
              heldout_severity_flag := true }
  else if enable_ood_hard_swap ∧ ex.op = Operator.swap_hard
      ∧ ex.hard_swap_flag then
    { ex with split := Split.test_ood_hard_swap, heldout_family_flag := false,
              heldout_severity_flag := false }
  else
    { ex with split := split0, heldout_family_flag := false,
              heldout_severity_flag := false }

/-- `construction.py::_assign_splits`. -/
def assign_splits (shuffle : List String → List String)
    (examples : List ConflictExample) (ratios : List (String × ℚ))
    (held_out_family : Family) (held_out_severity : Int)
    (enable_ood_hard_swap : Bool) : List ConflictExample :=
  let sm := source_split shuffle examples ratios
  examples.map (assignRow sm held_out_family held_out_severity
    enable_ood_hard_swap)

/-- The donor filter of `construction.py::_hard_swap_candidate`
(lines 143–152). -/
def hardSwapCandidates (base : ConflictExample)
    (donors : List ConflictExample) (jaccard_min jaccard_max : ℚ) :
    List ConflictExample :=
  donors.filter (fun donor =>
    !(decide (donor.base_id = base.base_id))
      && !(decide ((donor.source_image_id.getD "") = (base.source_image_id.getD "")))
      && (let score := jaccard_tokens (noun_like_tokens base.text_input)
            (noun_like_tokens donor.text_input)
          decide (jaccard_min ≤ score) && decide (score ≤ jaccard_max)))

/-- `construction.py::_hard_swap_candidate` (`rng.choice` abstracted). -/
def hard_swap_candidate (chooseEx : List ConflictExample → ConflictExample)
    (base : ConflictExample) (donors : List ConflictExample)
    (jaccard_min jaccard_max : ℚ) : Option ConflictExample :=
  let candidates := hardSwapCandidates base donors jaccard_min jaccard_max
  if candidates.isEmpty then Option.none else some (chooseEx candidates)

def pyMaxInt (l : List Int) : Int := l.foldl max (l.headD 0)

/-- The variants emitted for one normalised base example by the generation
loop of `build_conflict_suite` (lines 200–270): the clean row, the easy and
hard caption swaps (when any other base exists), the text edit, one vision
corruption per distinct configured severity, and optionally the combined
`both` variant. -/
def variantsFor (o : Oracles) (cfg : BuildConfig)
    (normalized_base : List ConflictExample) (base : ConflictExample) :
    List ConflictExample :=
  let easy_pool := normalized_base.filter (fun d => !(decide (d.base_id = base.base_id)))
  let swaps :=
    if easy_pool.isEmpty then []
    else
      let easy_donor := o.chooseEx easy_pool
      let easySwap := caption_swap base easy_donor.text_input
        Operator.swap_easy false cfg.seed
      let donors := normalized_base.filter (fun d =>
        decide (d.family = base.family) && decide (d.answer_type = base.answer_type))
      match hard_swap_candidate o.chooseEx base donors
          cfg.hard_swap_jaccard_min cfg.hard_swap_jaccard_max with
      | Option.none =>
        [easySwap, caption_swap base easy_donor.text_input
          Operator.swap_hard false cfg.seed]
      | some hard_donor =>
        [easySwap, caption_swap base hard_donor.text_input
          Operator.swap_hard true cfg.seed]
  let visions := (sortBy (fun a b => decide (a ≤ b))
      (pyDedup cfg.vision_severities)).map
    (fun sev => vision_corrupt base cfg.vision_corruption_type sev)
  let bothV :=
    if cfg.include_both_variants then
      let te := text_edit o.chooseColor base cfg.color_vocab cfg.seed
      [{ te with
          example_id := base.base_id ++ "::both"
          variant_id := "both"
          op := Operator.both
          corrupt_modality := CorruptModality.both
          severity := pyMaxInt cfg.vision_severities
          oracle_action := derive_oracle_action CorruptModality.both true }]
    else []
  [base] ++ swaps ++ [text_edit o.chooseColor base cfg.color_vocab cfg.seed]
    ++ visions ++ bothV

inductive ConfigValue where
  | i (n : Int)
  | q (x : ℚ)
  | s (v : String)
  | b (v : Bool)
  | il (l : List Int)
  | qm (m : List (String × ℚ))
  deriving DecidableEq, Repr

structure SuiteManifest where
  hashes : List (String × String)
  counts : List (String × Nat)
  total_examples : Nat
  config : List (String × ConfigValue)
  distributions : List (String × List (String × Nat))
  manifest_json : String
  deriving DecidableEq, Repr

/-- `construction.py::_distribution` (counts per key, sorted by key). -/
def distribution (examples : List ConflictExample)
    (key : ConflictExample → String) : List (String × Nat) :=
  (sortStrings (pyDedup (examples.map key))).map
    (fun k => (k, (examples.filter (fun ex => key ex = k)).length))

/-- The configuration echo attached to the manifest
(`construction.py` lines 288–300); note the source omits `color_vocab`. -/
def manifestConfig (cfg : BuildConfig) : List (String × ConfigValue) :=
  [("seed", .i cfg.seed),
   ("held_out_family", .s cfg.held_out_family.value),
   ("held_out_severity", .i cfg.held_out_severity),
   ("split_ratios", .qm cfg.split_ratios),
   ("vision_corruption_type", .s cfg.vision_corruption_type),
   ("vision_severities", .il cfg.vision_severities),
   ("hard_swap_jaccard_min", .q cfg.hard_swap_jaccard_min),
   ("hard_swap_jaccard_max", .q cfg.hard_swap_jaccard_max),
   ("include_both_variants", .b cfg.include_both_variants),
   ("enable_ood_hard_swap", .b cfg.enable_ood_hard_swap),
   ("enforce_template_disjointness", .b cfg.enforce_template_disjointness)]

/-- The generation + split-assignment + deterministic-sort phase of
`build_conflict_suite` (lines 184–281): normalise the inputs, emit every
variant, assign splits and sort by `example_id`. -/
def buildRows (o : Oracles) (cfg : BuildConfig)
    (base_examples : List ConflictExample) : List ConflictExample :=
  let normalized_base := base_examples.map (normalizeBase o.sha1hex)
  let generated := normalized_base.flatMap (variantsFor o cfg normalized_base)
  let assigned := assign_splits o.shuffle generated cfg.split_ratios
    cfg.held_out_family cfg.held_out_severity cfg.enable_ood_hard_swap
  sortBy (fun a b => strLe a.example_id b.example_id) assigned

/-- The distribution block of the manifest (`construction.py` lines 301–306). -/
def manifestDistributions (rows : List ConflictExample) :
    List (String × List (String × Nat)) :=
  [("family", distribution rows (fun ex => ex.family.value)),
   ("operator", distribution rows (fun ex => ex.op.value)),
   ("severity", distribution rows (fun ex => toString ex.severity)),
   ("split", distribution rows (fun ex => ex.split.value))]

/-- `construction.py::build_conflict_suite`.  `json.dumps(manifest,
sort_keys=True)` is modelled as a deterministic rendering of the manifest
fields (no claim inspects its contents); `max()` on an empty severity list
raises in Python, modelled by the leading guard. -/
def build_conflict_suite (o : Oracles) (cfg : BuildConfig)
    (base_examples : List ConflictExample) :
    Except String (List ConflictExample × SuiteManifest) :=
  if cfg.include_both_variants ∧ cfg.vision_severities = []
      ∧ base_examples ≠ [] then
    .error "max() arg is an empty sequence"
  else
    match validate_split_integrity o.sha256hex (buildRows o cfg base_examples)
        (some cfg.held_out_family) cfg.held_out_severity
        cfg.enforce_template_disjointness with
    | .error e => .error e
    | .ok vm =>
      .ok (buildRows o cfg base_examples,
        { hashes := vm.hashes
          counts := vm.counts
          total_examples := vm.total_examples
          config := manifestConfig cfg
          distributions := manifestDistributions (buildRows o cfg base_examples)
          manifest_json := reprStr (vm.hashes, vm.counts, vm.total_examples,
            manifestConfig cfg,
            manifestDistributions (buildRows o cfg base_examples)) })

/-- Projections of a build result, used to state properties of successful
builds without re-stating the whole returned pair. -/
def okRows (r : Except String (List ConflictExample × SuiteManifest)) :
    List ConflictExample :=
  match r with
  | .ok (exs, _) => exs
  | .error _ => []

def okConfig (r : Except String (List ConflictExample × SuiteManifest)) :
    List (String × ConfigValue) :=
  match r with
  | .ok (_, m) => m.config
  | .error _ => []

/-- `ConflictExample.source_image_id` is populated and coincides with the
validator's source key (established by normalisation, preserved by every
later phase). -/
def sourceConsistent (ex : ConflictExample) : Prop :=
  ex.source_image_id = some (sourceKey ex)

/-! ## Stratified pilot sampler (`sampling.py`) -/

/-- The distinct `base_id` values in first-occurrence order (the keys of the
`defaultdict` of `sampling.py::_group_by_base`). -/
def baseIds (examples : List ConflictExample) : List String :=
  pyDedup (examples.map (fun ex => ex.base_id))

/-- `sampling.py::_group_by_base`: insertion-ordered grouping; each key maps
to its rows in input order. -/
def groupByBase (examples : List ConflictExample) :
    List (String × List ConflictExample) :=
  (baseIds examples).map
    (fun k => (k, examples.filter (fun ex => ex.base_id = k)))

/-- `sampling.py::_representative`: the first clean variant, else the row
with the smallest `example_id`. -/
def representative (group : List ConflictExample) : ConflictExample :=
  match group.find? (fun ex => ex.op = Operator.clean) with
  | some ex => ex
  | Option.none =>
    (sortBy (fun a b => strLe a.example_id b.example_id) group).headD default

/-- A stratum key `(family.value, split.value)`. -/
abbrev StrataKey := String × String

/-- The take performed for each stratum by the deficit-correction loop of
`sampling.py::_allocate_counts` (lines 52–60), visited in
sorted-by-size-descending order: `take = min(room, deficit)`. -/
def backfillTakes (deficit : Nat) :
    List ((StrataKey × Nat) × Nat) → List (StrataKey × Nat)
  | [] => []
  | p :: rest =>
    let room := p.1.2 - p.2
    let take := min room deficit
    (p.1.1, take) :: backfillTakes (deficit - take) rest

/-- The floored proportional share `int((size / n) * total)` of
`sampling.py::_allocate_counts` for the entry `p = (key, size)`. -/
def cntValue (total : Int) (n : Nat) (p : StrataKey × Nat) : Nat :=
  (pyIntOfRat (((p.2 : ℚ) / (n : ℚ)) * (total : ℚ))).toNat

/-- Stage 1 of `sampling.py::_allocate_counts`: the proportional raw shares
and their floors (`int(raw)`), as `((key, size), floor, fractional part)`
entries in the insertion order of `sizes`. -/
def allocBase0 (total : Int) (n : Nat) (sizes : List (StrataKey × Nat)) :
    List ((StrataKey × Nat) × Nat × ℚ) :=
  sizes.map (fun p =>
    let raw : ℚ := ((p.2 : ℚ) / (n : ℚ)) * (total : ℚ)
    (p, cntValue total n p, raw - ((cntValue total n p : Nat) : ℚ)))

/-- Stage 2: the keys that receive one leftover slot each — the first
`remaining` entries of the stable descending sort by fractional part. -/
def allocBump (total : Int) (n : Nat) (sizes : List (StrataKey × Nat)) :
    List StrataKey :=
  let base0 := allocBase0 total n sizes
  let assigned : Nat := (base0.map (fun p => p.2.1)).sum
  let remaining : Nat := (max 0 (total - (assigned : Int))).toNat
  ((sortBy (fun a b => decide (b.2.2 ≤ a.2.2)) base0).take remaining).map
    (fun p => p.1.1)

/-- The stage-3 allocation for the entry `p`: the floor, plus one if `p`'s
key received a leftover slot, capped at the stratum size. -/
def cappedValue (total : Int) (n : Nat) (sizes : List (StrataKey × Nat))
    (p : StrataKey × Nat) : Nat :=
  min (if p.1 ∈ allocBump total n sizes then cntValue total n p + 1
       else cntValue total n p) p.2

/-- Stage 3: add the leftover slots and cap each allocation at the stratum
size (a per-entry update because the stratum keys are distinct). -/
def allocCapped (total : Int) (n : Nat) (sizes : List (StrataKey × Nat)) :
    List ((StrataKey × Nat) × Nat) :=
  sizes.map (fun p => (p, cappedValue total n sizes p))

/-- `sampling.py::_allocate_counts`: proportional floors, largest-remainder
distribution of the leftover slots, capping at the stratum size, then the
deficit backfill from the largest strata.  Per-key dictionary updates become
per-entry updates because the stratum keys are distinct. -/
def allocate_counts (total : Int) (sizes : List (StrataKey × Nat)) :
    List (StrataKey × Nat) :=
  if total ≤ 0 then sizes.map (fun p => (p.1, 0))
  else
    let n : Nat := (sizes.map (fun p => p.2)).sum
    if n = 0 then sizes.map (fun p => (p.1, 0))
    else
      let capped := allocCapped total n sizes
      let assigned2 : Nat := (capped.map (fun p => p.2)).sum
      let deficit : Nat := (max 0 (total - (assigned2 : Int))).toNat
      let takes := backfillTakes deficit
        (sortBy (fun a b => decide (b.1.2 ≤ a.1.2)) capped)
      capped.map (fun p =>
        (p.1.1, p.2 + ((takes.find? (fun q => q.1 = p.1.1)).map
          (fun q => q.2)).getD 0))

/-- The allocation that `sampling.py::_allocate_counts` assigns to the entry
`p` of `sizes` (in the case `total > 0`, `sum > 0`): the capped stage-3 value
plus the backfill take for `p`'s key. -/
def allocValue (total : Int) (sizes : List (StrataKey × Nat))
    (p : StrataKey × Nat) : Nat :=
  let n : Nat := (sizes.map (fun q => q.2)).sum
  let capped := allocCapped total n sizes
  let assigned2 : Nat := (capped.map (fun q => q.2)).sum
  let deficit : Nat := (max 0 (total - (assigned2 : Int))).toNat
  let takes := backfillTakes deficit
    (sortBy (fun a b => decide (b.1.2 ≤ a.1.2)) capped)
  cappedValue total n sizes p
    + ((takes.find? (fun q => q.1 = p.1)).map (fun q => q.2)).getD 0

/-- The stratum key of a representative. -/
def repKey (rep : ConflictExample) : StrataKey :=
  (rep.family.value, rep.split.value)

structure SampleManifest where
  strategy : String
  seed : Int
  base_sample_size : Int
  selected_base_count : Nat
  selected_example_count : Nat
  strata_counts_full : List (String × Nat)
  strata_counts_selected : List (String × Nat)
  distributions : List (String × List (String × Nat))
  deriving Repr

/-- `sampling.py::sample_pilot_by_base`.  The per-stratum seeded
`rng.shuffle` is the abstract oracle `shuffle`; the `base_sample_size <= 0`
early return's three-key manifest is modelled with the remaining fields
empty. -/
def sample_pilot_by_base (shuffle : List String → List String)
    (examples : List ConflictExample) (base_sample_size : Int) (seed : Int) :
    List ConflictExample × SampleManifest :=
  let grouped := groupByBase examples
  let reps : List (String × ConflictExample) :=
    grouped.map (fun p => (p.1, representative p.2))
  if base_sample_size ≤ 0 then
    ([], { strategy := "stratified_base", seed := seed, base_sample_size := 0
           selected_base_count := 0, selected_example_count := 0
           strata_counts_full := [], strata_counts_selected := []
           distributions := [] })
  else
    let strataKeys : List StrataKey := pyDedup (reps.map (fun p => repKey p.2))
    let strata : List (StrataKey × List String) := strataKeys.map (fun k =>
      (k, sortStrings ((reps.filter (fun p => repKey p.2 = k)).map
        (fun p => p.1))))
    let sizes : List (StrataKey × Nat) := strata.map (fun p => (p.1, p.2.length))
    let total : Int := min base_sample_size (grouped.length : Int)
    let alloc := allocate_counts total sizes
    let selected_base_ids : List String := strata.flatMap (fun p =>
      (shuffle p.2).take
        (((alloc.find? (fun q => q.1 = p.1)).map (fun q => q.2)).getD 0))
    let selected := sortBy (fun a b => strLe a.example_id b.example_id)
      (examples.filter (fun ex => ex.base_id ∈ selected_base_ids))
    (selected,
      { strategy := "stratified_base", seed := seed
        base_sample_size := base_sample_size
        selected_base_count := (pyDedup selected_base_ids).length
        selected_example_count := selected.length
        strata_counts_full :=
          (sortBy (fun a b => strLe (a.1.1 ++ "::" ++ a.1.2)
            (b.1.1 ++ "::" ++ b.1.2)) strata).map
            (fun p => (p.1.1 ++ "::" ++ p.1.2, p.2.length))
        strata_counts_selected :=
          (sortBy (fun a b => strLe (a.1.1 ++ "::" ++ a.1.2)
            (b.1.1 ++ "::" ++ b.1.2)) strata).map
            (fun p => (p.1.1 ++ "::" ++ p.1.2,
              ((pyDedup selected_base_ids).filter (fun b => b ∈ p.2)).length))
        distributions :=
          [("family", distribution selected (fun ex => ex.family.value)),
           ("operator", distribution selected (fun ex => ex.op.value)),
           ("severity", distribution selected (fun ex => toString ex.severity)),
           ("split", distribution selected (fun ex => ex.split.value))] })

/-! ### Concrete oracles and inputs used by the closed theorems -/

/-- Deterministic stand-ins for the abstract oracles: identity shuffle,
first-element choice, identity digests. -/
def idOracles : Oracles :=
  { shuffle := id
    chooseEx := fun l => l.headD default
    chooseColor := fun l => l.headD "red"
    sha1hex := fun s => s
    sha256hex := fun s => s }

/-- The documented default construction parameters. -/
def defaultConfig : BuildConfig := {}

def baseB1 : ConflictExample :=
  { example_id := "b1::clean", base_id := "b1", variant_id := "clean"
    image_path := "images/b1.jpg", text_input := "A bicycle is next to a tree."
    question := "Is there a bicycle in the image?", gold_answer := "yes"
    split := .train, family := .existence, op := .clean
    corrupt_modality := .none, severity := 0, answer_type := .boolean
    oracle_action := .require_agreement, source_image_id := some "s1"
    template_id := some "t1", evidence_modality := .either }

def baseB2 : ConflictExample :=
  { example_id := "b2::clean", base_id := "b2", variant_id := "clean"
    image_path := "images/b2.jpg", text_input := "Two dogs sit on grass."
    question := "How many dogs are there?", gold_answer := "2"
    split := .train, family := .count, op := .clean
    corrupt_modality := .none, severity := 0, answer_type := .integer
    oracle_action := .require_agreement, source_image_id := some "s2"
    template_id := some "t2", evidence_modality := .both }

/-- A base example and a donor that shares its `base_id` but has a different
`source_image_id` and an in-band Jaccard similarity. -/
def baseHard : ConflictExample :=
  { example_id := "b9::clean", base_id := "b9", variant_id := "clean"
    image_path := "img9", text_input := "two dogs on grass"
    question := "How many dogs?", gold_answer := "2"
    split := .train, family := .count, op := .clean
    corrupt_modality := .none, severity := 0, answer_type := .integer
    oracle_action := .require_agreement, source_image_id := some "s1" }

def donorSameBase : ConflictExample :=
  { baseHard with
    source_image_id := some "s2"
    text_input := "two dogs on mud"
    image_path := "img10" }

/-- The row `assign_splits` emits for `rowTextSev0` in a one-row suite with
the default ratios (used by the C4 witness). -/
def outNoOverride : ConflictExample :=
  (assign_splits id [rowTextSev0] defaultConfig.split_ratios
    Family.attribute_color 3 false).headD default

/-! ## Lemmas about the validator -/

theorem rowError_none_iff (hf : Option Family) (hs : Int) (seen : List String)
    (ex : ConflictExample) :
    rowError hf hs seen ex = Option.none ↔
      ∀ c ∈ rowChecks hf hs seen ex, ¬ c.1 = true := by
  simp [rowError, List.find?_eq_none]

theorem rowError_none_severity {hf : Option Family} {hs : Int}
    {seen : List String} {ex : ConflictExample}
    (h : rowError hf hs seen ex = Option.none) :
    ex.corrupt_modality = CorruptModality.none → ex.severity = 0 := by
  intro hc
  by_contra hs0
  have h2 := (rowError_none_iff hf hs seen ex).mp h
  have hm : ((decide (ex.corrupt_modality = CorruptModality.none ∧ ex.severity ≠ 0),
      "Severity must be 0 for non-corrupted examples: " ++ ex.example_id) :
      Bool × String) ∈ rowChecks hf hs seen ex := by
    simp [rowChecks]
  have h3 := h2 _ hm
  simp [hc, hs0] at h3

theorem rowError_none_dup {hf : Option Family} {hs : Int}
    {seen : List String} {ex : ConflictExample}
    (h : rowError hf hs seen ex = Option.none) :
    ex.example_id ∉ seen := by
  intro hmem
  have h2 := (rowError_none_iff hf hs seen ex).mp h
  have hm : ((decide (ex.example_id ∈ seen),
      "Duplicate example_id: " ++ ex.example_id) : Bool × String)
      ∈ rowChecks hf hs seen ex := by
    simp [rowChecks]
  have h3 := h2 _ hm
  simp [hmem] at h3

theorem validateFold_ok_facts (hf : Option Family) (hs : Int) :
    ∀ (l : List ConflictExample) (st st' : VState),
      validateFold hf hs st l = .ok st' →
      (∀ p ∈ st.images, p ∈ st'.images) ∧
      (∀ ex ∈ l, (ex.split, sourceKey ex) ∈ st'.images) ∧
      (l.map (fun ex => ex.example_id)).Nodup ∧
      (∀ x ∈ st.seen, x ∉ l.map (fun ex => ex.example_id)) ∧
      (∀ ex ∈ l, ex.corrupt_modality = CorruptModality.none → ex.severity = 0) := by
  intro l
  induction l with
  | nil =>
    intro st st' h
    simp only [validateFold] at h
    cases h
    refine ⟨fun p hp => hp, by simp, by simp, by simp, by simp⟩
  | cons ex rest ih =>
    intro st st' h
    simp only [validateFold] at h
    cases hre : rowError hf hs st.seen ex with
    | some e => rw [hre] at h; simp at h
    | none =>
      rw [hre] at h
      simp only [] at h
      obtain ⟨ih1, ih2, ih3, ih4, ih5⟩ := ih _ _ h
      refine ⟨?_, ?_, ?_, ?_, ?_⟩
      · intro p hp
        exact ih1 p (List.mem_cons_of_mem _ hp)
      · intro e he
        rcases List.mem_cons.mp he with rfl | hm
        · exact ih1 _ (List.mem_cons_self _ _)
        · exact ih2 _ hm
      · refine List.nodup_cons.mpr ⟨?_, ih3⟩
        exact ih4 ex.example_id (List.mem_cons_self _ _)
      · intro x hx
        have hxne : x ≠ ex.example_id := by
          intro hxe
          exact rowError_none_dup hre (hxe ▸ hx)
        have hxrest := ih4 x (List.mem_cons_of_mem _ hx)
        simp only [List.map_cons, List.mem_cons]
        rintro (h1 | h2)
        · exact hxne h1
        · exact hxrest h2
      · intro e he
        rcases List.mem_cons.mp he with rfl | hm
        · exact rowError_none_severity hre
        · exact ih5 _ hm

theorem overlapOf_empty {l r : List String} (h : overlapOf l r = [])
    {s : String} (hl : s ∈ l) (hr : s ∈ r) : False := by
  have hmem : s ∈ overlapOf l r := by
    simp only [overlapOf, List.mem_filter]
    exact ⟨hl, by simpa using hr⟩
  rw [h] at hmem
  simp at hmem

theorem mem_imagesOf {pairs : List (Split × String)} {sp : Split} {s : String} :
    s ∈ imagesOf pairs sp ↔ (sp, s) ∈ pairs := by
  constructor
  · intro h
    simp only [imagesOf, List.mem_map, List.mem_filter] at h
    obtain ⟨⟨p1, p2⟩, ⟨hp, h1⟩, h2⟩ := h
    simp only [decide_eq_true_eq] at h1
    cases h1
    cases h2
    exact hp
  · intro h
    simp only [imagesOf, List.mem_map, List.mem_filter]
    exact ⟨(sp, s), ⟨h, by simp⟩, rfl⟩

theorem leakErrorAux_none {kind : String} {pairs : List (Split × String)} :
    ∀ ps, leakErrorAux kind pairs ps = Option.none →
      ∀ pr ∈ ps, ∀ s, (pr.1, s) ∈ pairs → (pr.2, s) ∈ pairs → False := by
  intro ps
  induction ps with
  | nil => intro _ pr hpr; simp at hpr
  | cons p rest ih =>
    intro h pr hpr s h1 h2
    obtain ⟨left, right⟩ := p
    simp only [leakErrorAux] at h
    by_cases hovl : (overlapOf (imagesOf pairs left) (imagesOf pairs right)).isEmpty
    · rw [if_pos hovl] at h
      rcases List.mem_cons.mp hpr with rfl | hm
      · exact overlapOf_empty (List.isEmpty_iff.mp hovl)
          (mem_imagesOf.mpr h1) (mem_imagesOf.mpr h2)
      · exact ih h pr hm s h1 h2
    · rw [if_neg hovl] at h
      simp at h

theorem idPairs_cover :
    ∀ a b : Split, a ∈ idSplits → b ∈ idSplits → a ≠ b →
      (a, b) ∈ idPairs ∨ (b, a) ∈ idPairs := by
  intro a b ha hb hne
  simp only [idSplits, List.mem_cons, List.not_mem_nil, or_false] at ha hb
  rcases ha with rfl | rfl | rfl <;> rcases hb with rfl | rfl | rfl <;>
    simp_all [idPairs]

/-- Master lemma: everything a successful run of the validator certifies that
the claims need — unique ids, the forward severity invariant, and pairwise
source-key disjointness of the in-distribution splits. -/
theorem validate_ok_facts {sha : String → String} {exs : List ConflictExample}
    {hf : Option Family} {hs : Int} {etd : Bool} {m : ValidateManifest}
    (h : validate_split_integrity sha exs hf hs etd = .ok m) :
    (exs.map (fun ex => ex.example_id)).Nodup ∧
    (∀ ex ∈ exs, ex.corrupt_modality = CorruptModality.none → ex.severity = 0) ∧
    (∀ ex1 ∈ exs, ∀ ex2 ∈ exs,
      ex1.split ∈ idSplits → ex2.split ∈ idSplits → ex1.split ≠ ex2.split →
      sourceKey ex1 ≠ sourceKey ex2) := by
  unfold validate_split_integrity at h
  cases hfold : validateFold hf hs VState.empty exs with
  | error e => rw [hfold] at h; simp at h
  | ok st =>
    rw [hfold] at h
    dsimp only at h
    obtain ⟨f1, f2, f3, f4, f5⟩ := validateFold_ok_facts hf hs exs VState.empty st hfold
    cases hleak : leakErrorAux "Image-source" st.images idPairs with
    | some e => rw [hleak] at h; simp at h
    | none =>
      refine ⟨f3, f5, ?_⟩
      intro ex1 h1 ex2 h2 hid1 hid2 hne heq
      have him1 : (ex1.split, sourceKey ex2) ∈ st.images := heq ▸ f2 ex1 h1
      have him2 : (ex2.split, sourceKey ex2) ∈ st.images := f2 ex2 h2
      rcases idPairs_cover ex1.split ex2.split hid1 hid2 hne with hp | hp
      · exact leakErrorAux_none idPairs hleak _ hp (sourceKey ex2) him1 him2
      · exact leakErrorAux_none idPairs hleak _ hp (sourceKey ex2) him2 him1

/-! ### Skipping the OOD-family checks when `heldout_family` is `None` -/

theorem find?_fst_drop_false (l1 l2 : List (Bool × String)) (c : Bool × String)
    (hc : c.1 = false) :
    (l1 ++ c :: l2).find? (fun x => x.1) = (l1 ++ l2).find? (fun x => x.1) := by
  induction l1 with
  | nil =>
    simp only [List.nil_append]
    rw [List.find?_cons_of_neg]
    simp [hc]
  | cons a l1 ih =>
    by_cases ha : a.1 = true
    · simp only [List.cons_append, List.find?_cons_of_pos _ ha]
    · simp only [List.cons_append,
        List.find?_cons_of_neg _ (by simp [Bool.not_eq_true] at ha ⊢; exact ha), ih]

theorem find?_drop56 (c1 c2 c3 c4 c7 c8 : Bool × String) (m5 m6 : String) :
    ([c1, c2, c3, c4, (false, m5), (false, m6), c7, c8] : List (Bool × String)).find?
        (fun x => x.1) =
      [c1, c2, c3, c4, c7, c8].find? (fun x => x.1) := by
  have h1 : ([c1, c2, c3, c4, (false, m5), (false, m6), c7, c8] : List (Bool × String))
      = [c1, c2, c3, c4] ++ (false, m5) :: ((false, m6) :: [c7, c8]) := by simp
  rw [h1, find?_fst_drop_false _ _ _ rfl, find?_fst_drop_false _ _ _ rfl]
  simp

theorem rowError_none_hf (hs : Int) (seen : List String) (ex : ConflictExample) :
    rowError Option.none hs seen ex = rowErrorNoFamily hs seen ex := by
  unfold rowError rowErrorNoFamily rowChecks rowChecksNoFamily
  congr 1

theorem validateFold_none_hf (hs : Int) :
    ∀ (l : List ConflictExample) (st : VState),
      validateFold Option.none hs st l = validateFoldNoFamily hs st l := by
  intro l
  induction l with
  | nil => intro st; rfl
  | cons ex rest ih =>
    intro st
    simp only [validateFold, validateFoldNoFamily, rowError_none_hf]
    cases rowErrorNoFamily hs st.seen ex with
    | some e => rfl
    | none => exact ih _

theorem validate_none_eq_no_family (sha : String → String)
    (exs : List ConflictExample) (hs : Int) (etd : Bool) :
    validate_split_integrity sha exs Option.none hs etd =
      validate_split_integrity_no_family_checks sha exs hs etd := by
  unfold validate_split_integrity validate_split_integrity_no_family_checks
  rw [validateFold_none_hf]

theorem rowChecks_relabel {f : ConflictExample → ConflictExample}
    (hrel : familyOnlyRelabel f) (hs : Int) (seen : List String)
    (ex : ConflictExample) :
    rowChecks Option.none hs seen (f ex) = rowChecks Option.none hs seen ex := by
  by_cases hsp : ex.split = Split.test_ood_family
  · obtain ⟨⟨h1, h2, h3, h4, h5, h6, h7, h8, h9, h10, h11, h12, h13, h14, h15,
      h16, h17, h18⟩, -⟩ := hrel ex
    simp only [rowChecks, h1, h8, h10, h11, h17, hsp]
    simp [idSplits]
  · rw [(hrel ex).2 hsp]

theorem sourceKey_relabel {f : ConflictExample → ConflictExample}
    (hrel : familyOnlyRelabel f) (ex : ConflictExample) :
    sourceKey (f ex) = sourceKey ex := by
  obtain ⟨⟨h1, h2, h3, h4, h5, h6, h7, h8, h9, h10, h11, h12, h13, h14, h15,
    h16, h17, h18⟩, -⟩ := hrel ex
  unfold sourceKey infer_source_image_id
  rw [h4, h14]

theorem validateFold_relabel {f : ConflictExample → ConflictExample}
    (hrel : familyOnlyRelabel f) (hs : Int) :
    ∀ (l : List ConflictExample) (st : VState),
      validateFold Option.none hs st (l.map f) = validateFold Option.none hs st l := by
  intro l
  induction l with
  | nil => intro st; rfl
  | cons ex rest ih =>
    intro st
    obtain ⟨⟨h1, h2, h3, h4, h5, h6, h7, h8, h9, h10, h11, h12, h13, h14, h15,
      h16, h17, h18⟩, -⟩ := hrel ex
    have hre : rowError Option.none hs st.seen (f ex)
        = rowError Option.none hs st.seen ex := by
      unfold rowError; rw [rowChecks_relabel hrel]
    simp only [List.map_cons, validateFold, hre, h1, h8, h15,
      sourceKey_relabel hrel]
    cases rowError Option.none hs st.seen ex with
    | some e => rfl
    | none => exact ih _

theorem presentSplits_relabel {f : ConflictExample → ConflictExample}
    (hrel : familyOnlyRelabel f) (exs : List ConflictExample) :
    presentSplits (exs.map f) = presentSplits exs := by
  unfold presentSplits
  rw [List.map_map]
  congr 1
  apply List.map_congr_left
  intro ex _
  exact ((hrel ex).1).2.2.2.2.2.2.2.1

theorem splitIdsFor_relabel {f : ConflictExample → ConflictExample}
    (hrel : familyOnlyRelabel f) (exs : List ConflictExample) (s : Split) :
    splitIdsFor (exs.map f) s = splitIdsFor exs s := by
  unfold splitIdsFor
  rw [List.filter_map, List.map_map]
  have hp : ∀ ex : ConflictExample,
      (fun e => decide (e.split = s)) (f ex) = decide (ex.split = s) := by
    intro ex
    have := ((hrel ex).1).2.2.2.2.2.2.2.1
    simp [this]
  have hfil : List.filter ((fun e => decide (e.split = s)) ∘ f) exs
      = List.filter (fun e => decide (e.split = s)) exs := by
    apply List.filter_congr
    intro ex _
    exact hp ex
  rw [hfil]
  apply List.map_congr_left
  intro ex _
  exact ((hrel ex).1).1

theorem filterSplit_relabel {f : ConflictExample → ConflictExample}
    (hrel : familyOnlyRelabel f) (exs : List ConflictExample) (s : Split) :
    (List.filter (fun e => decide (e.split = s)) (exs.map f)).length
      = (List.filter (fun e => decide (e.split = s)) exs).length := by
  rw [List.filter_map]
  have hfil : List.filter ((fun e => decide (e.split = s)) ∘ f) exs
      = List.filter (fun e => decide (e.split = s)) exs := by
    apply List.filter_congr
    intro ex _
    have := ((hrel ex).1).2.2.2.2.2.2.2.1
    simp [this]
  rw [hfil, List.length_map]

theorem validate_relabel {f : ConflictExample → ConflictExample}
    (hrel : familyOnlyRelabel f) (sha : String → String)
    (exs : List ConflictExample) (hs : Int) (etd : Bool) :
    validate_split_integrity sha (exs.map f) Option.none hs etd =
      validate_split_integrity sha exs Option.none hs etd := by
  unfold validate_split_integrity
  rw [validateFold_relabel hrel]
  cases validateFold Option.none hs VState.empty exs with
  | error e => rfl
  | ok st =>
    dsimp only
    cases leakErrorAux "Image-source" st.images idPairs with
    | some e => rfl
    | none =>
      dsimp only
      cases (if etd then leakErrorAux "Template" st.templates idPairs
          else Option.none) with
      | some e => rfl
      | none =>
        dsimp only
        have hh : hash_by_split sha (exs.map f) = hash_by_split sha exs := by
          unfold hash_by_split
          rw [presentSplits_relabel hrel]
          apply List.map_congr_left
          intro s _
          rw [splitIdsFor_relabel hrel]
        have hc : count_by_split (exs.map f) = count_by_split exs := by
          unfold count_by_split
          rw [presentSplits_relabel hrel]
          apply List.map_congr_left
          intro s _
          rw [filterSplit_relabel hrel]
        rw [hh, hc, List.length_map]

/-! ## Lemmas about the construction pipeline -/

theorem insertSorted_perm {α : Type} (le : α → α → Bool) (x : α) :
    ∀ l : List α, List.Perm (insertSorted le x l) (x :: l) := by
  intro l
  induction l with
  | nil => simp [insertSorted]
  | cons y ys ih =>
    unfold insertSorted
    by_cases h : le x y
    · rw [if_pos h]
    · rw [if_neg h]
      exact (ih.cons y).trans (List.Perm.swap x y ys)

theorem sortBy_perm {α : Type} (le : α → α → Bool) :
    ∀ l : List α, List.Perm (sortBy le l) l := by
  intro l
  induction l with
  | nil => exact List.Perm.refl _
  | cons x xs ih =>
    exact (insertSorted_perm le x (sortBy le xs)).trans (ih.cons x)

theorem mem_sortBy {α : Type} {le : α → α → Bool} {l : List α} {x : α} :
    x ∈ sortBy le l ↔ x ∈ l :=
  (sortBy_perm le l).mem_iff

theorem pyOrStr_idem (o : Option String) (d : String) :
    pyOrStr (some (pyOrStr o d)) d = pyOrStr o d := by
  unfold pyOrStr
  cases o with
  | none => split <;> simp_all
  | some s =>
    by_cases hs : s = ""
    · simp [hs]
    · simp [hs]

/-- Transport of `sourceConsistent` along a row that keeps the source fields. -/
theorem sourceConsistent_of_fields {a b : ConflictExample}
    (hs : a.source_image_id = b.source_image_id)
    (hi : a.image_path = b.image_path) (hb : sourceConsistent b) :
    sourceConsistent a := by
  unfold sourceConsistent sourceKey at hb ⊢
  rw [hs, hi]
  exact hb

theorem sourceConsistent_normalize (sha1 : String → String)
    (ex : ConflictExample) : sourceConsistent (normalizeBase sha1 ex) := by
  unfold normalizeBase set_clean_defaults sourceConsistent sourceKey
  by_cases h : ex.op ≠ Operator.clean
  · rw [if_pos h]
    exact congrArg some (pyOrStr_idem _ _).symm
  · rw [if_neg h]
    exact congrArg some (pyOrStr_idem _ _).symm

/-- Every variant emitted for a base keeps the base's source fields. -/
theorem variantsFor_source_fields (o : Oracles) (cfg : BuildConfig)
    (nb : List ConflictExample) (base : ConflictExample) :
    ∀ v ∈ variantsFor o cfg nb base,
      v.source_image_id = base.source_image_id
        ∧ v.image_path = base.image_path := by
  intro v hv
  simp only [variantsFor] at hv
  rcases List.mem_append.mp hv with h1 | hboth
  rotate_left
  · -- the optional `both` variant
    revert hboth
    split
    · intro hboth
      rcases List.mem_singleton.mp hboth with rfl
      exact ⟨rfl, rfl⟩
    · intro hboth
      simp at hboth
  rcases List.mem_append.mp h1 with h2 | hvis
  rotate_left
  · -- vision corruptions
    obtain ⟨sev, -, rfl⟩ := List.mem_map.mp hvis
    exact ⟨rfl, rfl⟩
  rcases List.mem_append.mp h2 with h3 | hte
  rotate_left
  · -- text edit
    rcases List.mem_singleton.mp hte with rfl
    exact ⟨rfl, rfl⟩
  rcases List.mem_append.mp h3 with hbase | hswap
  · rcases List.mem_singleton.mp hbase with rfl
    exact ⟨rfl, rfl⟩
  · -- the swap block: either empty or two caption swaps of `base`
    revert hswap
    split
    · intro hswap
      simp at hswap
    · split
      · intro hswap
        rcases List.mem_cons.mp hswap with rfl | hswap2
        · exact ⟨rfl, rfl⟩
        rcases List.mem_singleton.mp hswap2 with rfl
        exact ⟨rfl, rfl⟩
      · intro hswap
        rcases List.mem_cons.mp hswap with rfl | hswap2
        · exact ⟨rfl, rfl⟩
        rcases List.mem_singleton.mp hswap2 with rfl
        exact ⟨rfl, rfl⟩

theorem sourceConsistent_assignRow (sm : String → Split) (hof : Family)
    (hos : Int) (en : Bool) (ex : ConflictExample)
    (hx : sourceConsistent ex) :
    sourceConsistent (assignRow sm hof hos en ex) := by
  unfold assignRow
  split
  · exact sourceConsistent_of_fields rfl rfl hx
  · split
    · exact sourceConsistent_of_fields rfl rfl hx
    · split
      · exact sourceConsistent_of_fields rfl rfl hx
      · exact sourceConsistent_of_fields rfl rfl hx

theorem sourceConsistent_buildRows (o : Oracles) (cfg : BuildConfig)
    (bases : List ConflictExample) :
    ∀ v ∈ buildRows o cfg bases, sourceConsistent v := by
  intro v hv
  unfold buildRows assign_splits at hv
  rw [mem_sortBy] at hv
  simp only [List.mem_map, List.mem_flatMap] at hv
  obtain ⟨u, ⟨b, hb, hu⟩, rfl⟩ := hv
  obtain ⟨e0, -, rfl⟩ := hb
  have hcb := sourceConsistent_normalize o.sha1hex e0
  have hfields := variantsFor_source_fields o cfg _ _ u hu
  have hcu := sourceConsistent_of_fields hfields.1 hfields.2 hcb
  exact sourceConsistent_assignRow _ _ _ _ _ hcu

/-- Extraction: a successful build ran the validator successfully on exactly
the returned row list, and echoed `manifestConfig`. -/
theorem build_ok_validate {o : Oracles} {cfg : BuildConfig}
    {bases : List ConflictExample}
    (h : okBool (build_conflict_suite o cfg bases) = true) :
    ∃ vm, validate_split_integrity o.sha256hex (buildRows o cfg bases)
        (some cfg.held_out_family) cfg.held_out_severity
        cfg.enforce_template_disjointness = .ok vm ∧
      okRows (build_conflict_suite o cfg bases) = buildRows o cfg bases ∧
      okConfig (build_conflict_suite o cfg bases) = manifestConfig cfg := by
  unfold build_conflict_suite at h ⊢
  split at h
  · simp [okBool] at h
  · rename_i hguard
    rw [if_neg hguard]
    cases hval : validate_split_integrity o.sha256hex (buildRows o cfg bases)
        (some cfg.held_out_family) cfg.held_out_severity
        cfg.enforce_template_disjointness with
    | error e => rw [hval] at h; simp [okBool] at h
    | ok vm =>
      refine ⟨vm, rfl, ?_, ?_⟩ <;> rfl

/-! ## Claim C3 -/

/-- C3 (counterexample): the claim states that `validate_split_integrity`
rejects any row with `corrupt_modality != NONE` and `severity == 0`; at the
concrete row `rowTextSev0` (corrupted text, severity 0) validation succeeds,
so the reverse direction of the `severity == 0 iff corrupt_modality == none`
invariant is not enforced and the claim as stated is false. -/
theorem severity_reverse_direction_not_rejected :
    rowTextSev0.corrupt_modality ≠ CorruptModality.none ∧
    rowTextSev0.severity = 0 ∧
    okBool (validate_split_integrity (fun s => s) [rowTextSev0]
      Option.none 3 false) = true := by
  decide

/-- C3 (amended): `validate_split_integrity` enforces only the forward
direction of the severity invariant: every suite it accepts has
`severity == 0` on all rows with `corrupt_modality == NONE`, and every suite
containing a row with `corrupt_modality == NONE` and `severity != 0` is
rejected with an integrity violation; the reverse direction
(`corrupt_modality != NONE` with `severity == 0`) triggers no severity
error. -/
theorem validate_severity_forward_only (sha : String → String)
    (exs : List ConflictExample) (hf : Option Family) (hs : Int) (etd : Bool) :
    (∀ m, validate_split_integrity sha exs hf hs etd = .ok m →
      ∀ ex ∈ exs, ex.corrupt_modality = CorruptModality.none → ex.severity = 0) ∧
    ((∃ ex ∈ exs, ex.corrupt_modality = CorruptModality.none ∧ ex.severity ≠ 0) →
      okBool (validate_split_integrity sha exs hf hs etd) = false) := by
  constructor
  · intro m hok ex hm
    exact (validate_ok_facts hok).2.1 ex hm
  · rintro ⟨ex, hm, hc, hsev⟩
    cases hres : validate_split_integrity sha exs hf hs etd with
    | error e => rfl
    | ok m => exact absurd ((validate_ok_facts hres).2.1 ex hm hc) hsev

/-- Witness for `validate_severity_forward_only` at the concrete suite
`[rowNoneSev2]` (a clean row with severity 2): the hypothesis of the second
conjunct is discharged concretely and validation indeed fails. -/
theorem validate_severity_forward_only_witness :
    (rowNoneSev2.corrupt_modality = CorruptModality.none ∧
      rowNoneSev2.severity ≠ 0) ∧
    okBool (validate_split_integrity (fun s => s) [rowNoneSev2]
      Option.none 3 false) = false :=
  ⟨by decide,
    (validate_severity_forward_only (fun s => s) [rowNoneSev2]
      Option.none 3 false).2 ⟨rowNoneSev2, by decide, by decide, by decide⟩⟩

/-! ## Claim C10 -/

/-- C10: calling `validate_split_integrity` with `heldout_family = None`
skips the two OOD-family checks entirely — the run coincides with the
validator in which those checks are deleted (all other checks still run), and
the outcome is invariant under arbitrary relabelling of the `family` and
`heldout_family_flag` fields of `test_ood_family` rows. -/
theorem validate_none_family_skips_family_checks (sha : String → String)
    (exs : List ConflictExample) (hs : Int) (etd : Bool) :
    validate_split_integrity sha exs Option.none hs etd =
      validate_split_integrity_no_family_checks sha exs hs etd ∧
    ∀ f : ConflictExample → ConflictExample, familyOnlyRelabel f →
      validate_split_integrity sha (exs.map f) Option.none hs etd =
        validate_split_integrity sha exs Option.none hs etd :=
  ⟨validate_none_eq_no_family sha exs hs etd,
   fun _ hrel => validate_relabel hrel sha exs hs etd⟩

/-- Witness for `validate_none_family_skips_family_checks`: the concrete
relabelling `relabelOodFamily` satisfies `familyOnlyRelabel`, and applying the
theorem at the one-row suite `[rowOodFamily]` (an OOD-family row with a
non-heldout family and an unset flag) shows validation is unaffected. -/
theorem validate_none_family_skips_family_checks_witness :
    familyOnlyRelabel relabelOodFamily ∧
    validate_split_integrity (fun s => s)
        ([rowOodFamily].map relabelOodFamily) Option.none 3 false =
      validate_split_integrity (fun s => s) [rowOodFamily]
        Option.none 3 false := by
  have hrel : familyOnlyRelabel relabelOodFamily := by
    intro ex
    unfold relabelOodFamily
    by_cases hsp : ex.split = Split.test_ood_family
    · simp [hsp]
    · simp [hsp]
  exact ⟨hrel, (validate_none_family_skips_family_checks (fun s => s)
    [rowOodFamily] 3 false).2 relabelOodFamily hrel⟩

/-! ## Claim C1 -/

/-- C1 (code evaluated at the failing input): the committed
`labeling.py::derive_oracle_action` is a lookup over the pair
`(evidence_modality, corrupted_modality)`; its table has no entry for
corrupted modality `both` (the lookup raises `KeyError`, modelled as `none`),
so it is not total over the claimed input, and at
`(TEXT_REQUIRED, TEXT)` the table yields `ABSTAIN` where the claimed policy —
the one asserted by `tests/test_labeling.py` and assumed by every caller,
modelled by the one-argument `derive_oracle_action` — yields `TRUST_VISION`. -/
theorem derive_oracle_action_code_contradicts_claim :
    (∀ e : EvidenceModality,
      derive_oracle_action_code e CorruptModality.both = Option.none) ∧
    derive_oracle_action_code EvidenceModality.text_required CorruptModality.text
      = some Action.abstain ∧
    derive_oracle_action CorruptModality.text false = Action.trust_vision := by
  decide

/-! ## Claim C9 -/

theorem roundTo4_mono {x y : ℚ} (h : x ≤ y) : roundTo4 x ≤ roundTo4 y := by
  unfold roundTo4
  rw [div_le_div_iff_of_pos_right (by norm_num : (0 : ℚ) < 10000)]
  have hr : round (x * 10000) ≤ round (y * 10000) := by
    rw [round_eq, round_eq]
    exact Int.floor_le_floor (by linarith)
  exact_mod_cast hr

theorem roundTo4_ge {x : ℚ} (h : 1/20 ≤ x) : 1/20 ≤ roundTo4 x := by
  unfold roundTo4
  have hr : (500 : ℤ) ≤ round (x * 10000) := by
    rw [round_eq]
    apply Int.le_floor.mpr
    push_cast
    linarith
  have h2 : (500 : ℚ) ≤ ((round (x * 10000) : ℤ) : ℚ) := by exact_mod_cast hr
  rw [show (1 : ℚ)/20 = 500 / 10000 by norm_num]
  rw [div_le_div_iff_of_pos_right (by norm_num : (0 : ℚ) < 10000)]
  exact h2

/-- The clamped severity / max penalty of `derive_reliability_target` is
monotone in the severity argument. -/
theorem penalty_mono {m s1 s2 : Int} (hm : 0 < m) (hs : s1 ≤ s2) :
    max (1/5 : ℚ) ((max 0 (min s1 m) : Int) / (m : ℚ)) ≤
      max (1/5 : ℚ) ((max 0 (min s2 m) : Int) / (m : ℚ)) := by
  apply max_le_max_left
  have hmq : (0 : ℚ) < (m : ℚ) := by exact_mod_cast hm
  have hcast : ((max 0 (min s1 m) : Int) : ℚ) ≤ ((max 0 (min s2 m) : Int) : ℚ) := by
    exact_mod_cast max_le_max_left 0 (min_le_min_right m hs)
  exact (div_le_div_iff_of_pos_right hmq).mpr hcast

/-- C9: for every fixed evidence modality and fixed positive `max_severity`,
with the vision modality corrupted, the `r_v` component of
`derive_reliability_target` is monotonically non-increasing in severity, and
it never falls below `0.05`. -/
theorem reliability_rv_antitone_and_floored (em : EvidenceModality)
    (max_severity s1 s2 : Int) (hm : 0 < max_severity) (hs : s1 ≤ s2) :
    (derive_reliability_target em CorruptModality.vision s2 max_severity).r_v ≤
      (derive_reliability_target em CorruptModality.vision s1 max_severity).r_v ∧
    1/20 ≤ (derive_reliability_target em CorruptModality.vision s1
      max_severity).r_v := by
  unfold derive_reliability_target
  simp only [if_pos hm, if_pos rfl]
  constructor
  · apply roundTo4_mono
    apply max_le_max_left
    have hp := penalty_mono hm hs
    have hrv0 : (0 : ℚ) ≤ (base_reliability em).1 := by
      cases em <;> norm_num [base_reliability]
    have hsub : 1 - max (1/5 : ℚ) ((max 0 (min s2 max_severity) : Int) / (max_severity : ℚ))
        ≤ 1 - max (1/5 : ℚ) ((max 0 (min s1 max_severity) : Int) / (max_severity : ℚ)) := by
      linarith
    exact mul_le_mul_of_nonneg_left hsub hrv0
  · apply roundTo4_ge
    exact le_max_left _ _

/-- Witness for `reliability_rv_antitone_and_floored` at
`em = VISION_REQUIRED`, `max_severity = 3`, severities `1 ≤ 2`. -/
theorem reliability_rv_antitone_and_floored_witness :
    (0 : Int) < 3 ∧ (1 : Int) ≤ 2 ∧
    ((derive_reliability_target EvidenceModality.vision_required
        CorruptModality.vision 2 3).r_v ≤
      (derive_reliability_target EvidenceModality.vision_required
        CorruptModality.vision 1 3).r_v ∧
    1/20 ≤ (derive_reliability_target EvidenceModality.vision_required
        CorruptModality.vision 1 3).r_v) :=
  ⟨by norm_num, by norm_num,
    reliability_rv_antitone_and_floored EvidenceModality.vision_required 3 1 2
      (by norm_num) (by norm_num)⟩

/-! ## Claim C2 -/

/-- C2: whenever `build_conflict_suite` returns, any two rows of the returned
suite that sit in two distinct in-distribution splits (train, val, test_id)
carry distinct `source_image_id` values — the ID splits' source sets are
pairwise disjoint. -/
theorem build_id_split_sources_disjoint (o : Oracles) (cfg : BuildConfig)
    (bases : List ConflictExample)
    (h : okBool (build_conflict_suite o cfg bases) = true) :
    ∀ ex1 ∈ okRows (build_conflict_suite o cfg bases),
      ∀ ex2 ∈ okRows (build_conflict_suite o cfg bases),
        ex1.split ∈ idSplits → ex2.split ∈ idSplits → ex1.split ≠ ex2.split →
        ex1.source_image_id ≠ ex2.source_image_id := by
  obtain ⟨vm, hval, hrows, -⟩ := build_ok_validate h
  rw [hrows]
  intro ex1 h1 ex2 h2 hid1 hid2 hne
  have hd := (validate_ok_facts hval).2.2 ex1 h1 ex2 h2 hid1 hid2 hne
  have hc1 : ex1.source_image_id = some (sourceKey ex1) :=
    sourceConsistent_buildRows o cfg bases ex1 h1
  have hc2 : ex2.source_image_id = some (sourceKey ex2) :=
    sourceConsistent_buildRows o cfg bases ex2 h2
  rw [hc1, hc2]
  intro heq
  exact hd (Option.some.inj heq)

/-- Witness for `build_id_split_sources_disjoint`: a concrete two-base build
succeeds and the theorem applies to it. -/
theorem build_id_split_sources_disjoint_witness :
    okBool (build_conflict_suite idOracles defaultConfig [baseB1, baseB2])
        = true ∧
    (∀ ex1 ∈ okRows (build_conflict_suite idOracles defaultConfig
        [baseB1, baseB2]),
      ∀ ex2 ∈ okRows (build_conflict_suite idOracles defaultConfig
        [baseB1, baseB2]),
        ex1.split ∈ idSplits → ex2.split ∈ idSplits → ex1.split ≠ ex2.split →
        ex1.source_image_id ≠ ex2.source_image_id) :=
  ⟨by decide,
    build_id_split_sources_disjoint idOracles defaultConfig [baseB1, baseB2]
      (by decide)⟩

/-! ## Claim C8 -/

/-- C8: whenever `build_conflict_suite` returns, every `example_id` of the
returned suite is unique; and any suite containing a duplicate `example_id`
fails validation (the whole construction fails atomically, since the
validator's error propagates). -/
theorem build_example_ids_unique (o : Oracles) (cfg : BuildConfig)
    (bases : List ConflictExample)
    (h : okBool (build_conflict_suite o cfg bases) = true) :
    ((okRows (build_conflict_suite o cfg bases)).map
        (fun ex => ex.example_id)).Nodup ∧
    ∀ (sha : String → String) (l : List ConflictExample) (hf : Option Family)
        (hs : Int) (etd : Bool),
      ¬ (l.map (fun ex => ex.example_id)).Nodup →
      okBool (validate_split_integrity sha l hf hs etd) = false := by
  constructor
  · obtain ⟨vm, hval, hrows, -⟩ := build_ok_validate h
    rw [hrows]
    exact (validate_ok_facts hval).1
  · intro sha l hf hs etd hdup
    cases hres : validate_split_integrity sha l hf hs etd with
    | error e => rfl
    | ok m => exact absurd (validate_ok_facts hres).1 hdup

/-- Witness for `build_example_ids_unique`: the concrete two-base build
succeeds with unique ids, and a concrete duplicated suite is rejected. -/
theorem build_example_ids_unique_witness :
    okBool (build_conflict_suite idOracles defaultConfig [baseB1, baseB2])
        = true ∧
    ((okRows (build_conflict_suite idOracles defaultConfig [baseB1, baseB2])).map
        (fun ex => ex.example_id)).Nodup ∧
    okBool (validate_split_integrity (fun s => s) [rowTextSev0, rowTextSev0]
        Option.none 3 false) = false := by
  have h := build_example_ids_unique idOracles defaultConfig [baseB1, baseB2]
    (by decide)
  exact ⟨by decide, h.1, h.2 (fun s => s) [rowTextSev0, rowTextSev0]
    Option.none 3 false (by decide)⟩

/-! ## Claim C6 -/

/-- C6 (counterexample): a concrete successful build whose manifest config
has no `color_vocab` key, although a non-default-free `color_vocab`
parameter exists; the claimed echo of `color_vocab` is absent. -/
theorem manifest_config_omits_color_vocab :
    okBool (build_conflict_suite idOracles defaultConfig [baseB1, baseB2])
        = true ∧
    "color_vocab" ∉ (okConfig (build_conflict_suite idOracles defaultConfig
        [baseB1, baseB2])).map Prod.fst ∧
    defaultConfig.color_vocab ≠ [] := by
  refine ⟨by decide, ?_, by decide⟩
  decide

/-- C6 (amended): the manifest's `config` mapping echoes every construction
parameter except `color_vocab` — exactly the keys seed, held_out_family,
held_out_severity, split_ratios, vision_corruption_type, vision_severities,
hard_swap_jaccard_min, hard_swap_jaccard_max, include_both_variants,
enable_ood_hard_swap, enforce_template_disjointness, each bound to the
parameter it was called with (`manifestConfig`). -/
theorem build_manifest_config_echo (o : Oracles) (cfg : BuildConfig)
    (bases : List ConflictExample)
    (h : okBool (build_conflict_suite o cfg bases) = true) :
    okConfig (build_conflict_suite o cfg bases) = manifestConfig cfg ∧
    (manifestConfig cfg).map Prod.fst =
      ["seed", "held_out_family", "held_out_severity", "split_ratios",
       "vision_corruption_type", "vision_severities", "hard_swap_jaccard_min",
       "hard_swap_jaccard_max", "include_both_variants",
       "enable_ood_hard_swap", "enforce_template_disjointness"] := by
  obtain ⟨vm, -, -, hcfg⟩ := build_ok_validate h
  exact ⟨hcfg, rfl⟩

/-- Witness for `build_manifest_config_echo` at the concrete build. -/
theorem build_manifest_config_echo_witness :
    okBool (build_conflict_suite idOracles defaultConfig [baseB1, baseB2])
        = true ∧
    okConfig (build_conflict_suite idOracles defaultConfig [baseB1, baseB2])
        = manifestConfig defaultConfig :=
  ⟨by decide,
    (build_manifest_config_echo idOracles defaultConfig [baseB1, baseB2]
      (by decide)).1⟩

/-! ## Claim C4 -/

/-- C4: during split assignment every row receives the bucket of its source
key unless exactly the first matching override in the priority order
family > severity > hard-swap fires: held-out family sends it to
`test_ood_family` with the family flag set; otherwise corrupted severity at or
above the threshold sends it to `test_ood_severity` with the severity flag
set; otherwise an enabled hard-swap row goes to `test_ood_hard_swap`; rows
with no matching override keep both held-out flags false and inherit the
source bucket. -/
theorem assign_splits_override_priority
    (shuffle : List String → List String) (examples : List ConflictExample)
    (ratios : List (String × ℚ)) (hof : Family) (hos : Int) (enable : Bool)
    (i : Nat) (ex out : ConflictExample)
    (hex : examples[i]? = some ex)
    (hout : (assign_splits shuffle examples ratios hof hos enable)[i]?
      = some out) :
    (ex.family = hof →
      out = { ex with
              split := Split.test_ood_family,
              heldout_family_flag := true, heldout_severity_flag := false }) ∧
    (ex.family ≠ hof →
      ex.corrupt_modality ≠ CorruptModality.none →
      hos ≤ ex.severity →
      out = { ex with
              split := Split.test_ood_severity,
              heldout_family_flag := false, heldout_severity_flag := true }) ∧
    (ex.family ≠ hof →
      ¬(ex.corrupt_modality ≠ CorruptModality.none ∧ hos ≤ ex.severity) →
      enable = true → ex.op = Operator.swap_hard →
      ex.hard_swap_flag = true →
      out = { ex with
              split := Split.test_ood_hard_swap,
              heldout_family_flag := false, heldout_severity_flag := false }) ∧
    (ex.family ≠ hof →
      ¬(ex.corrupt_modality ≠ CorruptModality.none ∧ hos ≤ ex.severity) →
      ¬(enable = true ∧ ex.op = Operator.swap_hard
          ∧ ex.hard_swap_flag = true) →
      out = { ex with
              split := source_split shuffle examples ratios (sourceKey ex),
              heldout_family_flag := false,
              heldout_severity_flag := false }) := by
  have hrow : (assign_splits shuffle examples ratios hof hos enable)[i]?
      = some (assignRow (source_split shuffle examples ratios) hof hos enable
        ex) := by
    unfold assign_splits
    rw [List.getElem?_map, hex]
    rfl
  rw [hrow] at hout
  obtain rfl : assignRow (source_split shuffle examples ratios) hof hos enable
      ex = out := Option.some.inj hout
  refine ⟨?_, ?_, ?_, ?_⟩
  · intro h1
    unfold assignRow
    rw [if_pos h1]
  · intro h1 h2 h3
    unfold assignRow
    rw [if_neg h1, if_pos ⟨h2, h3⟩]
  · intro h1 h2 he ho hf
    unfold assignRow
    rw [if_neg h1, if_neg h2, if_pos ⟨he, ho, hf⟩]
  · intro h1 h2 h3
    unfold assignRow
    rw [if_neg h1, if_neg h2, if_neg h3]

/-- Witness for `assign_splits_override_priority`: the no-override branch at a
concrete one-row suite — the row inherits its source bucket (test_id for a
single source under the default ratios) with both flags false. -/
theorem assign_splits_override_priority_witness :
    rowTextSev0.family ≠ Family.attribute_color ∧
    outNoOverride = { rowTextSev0 with
      split := Split.test_id,
      heldout_family_flag := false, heldout_severity_flag := false } := by
  refine ⟨by decide, ?_⟩
  have h := assign_splits_override_priority id [rowTextSev0]
    defaultConfig.split_ratios Family.attribute_color 3 false 0 rowTextSev0
    outNoOverride (by decide) (by decide)
  have h4 := h.2.2.2 (by decide) (by decide) (by decide)
  exact h4.trans (by decide)

/-! ## Claim C5 -/

/-- C5 (counterexample): a donor in the base's bucket whose `source_image_id`
differs from the base's and whose Jaccard similarity lies inside the
inclusive band is nevertheless not kept, because it shares the base's
`base_id`; donor selection returns no candidate. -/
theorem hard_swap_same_base_donor_excluded :
    donorSameBase.source_image_id.getD "" ≠ baseHard.source_image_id.getD ""
      ∧ (1/5 : ℚ) ≤ jaccard_tokens (noun_like_tokens baseHard.text_input)
          (noun_like_tokens donorSameBase.text_input)
      ∧ jaccard_tokens (noun_like_tokens baseHard.text_input)
          (noun_like_tokens donorSameBase.text_input) ≤ (7/10 : ℚ)
      ∧ donorSameBase.family = baseHard.family
      ∧ donorSameBase.answer_type = baseHard.answer_type
      ∧ hard_swap_candidate (fun l => l.headD default) baseHard [donorSameBase]
          (1/5) (7/10) = Option.none := by
  refine ⟨by decide, by decide, by decide, by decide, by decide, by decide⟩

/-- C5 (amended): donor selection keeps exactly the same-bucket donors whose
`base_id` differs from the base's, whose `source_image_id` (with `None`
coerced to the empty string) differs from the base's, and whose noun-token
Jaccard similarity lies in the inclusive band; when no donor qualifies no
error is raised — selection returns none and the generation loop emits the
hard-swap variant from the easy-swap donor's text with
`hard_swap_flag = false`. -/
theorem hard_swap_band_and_fallback
    (chooseEx : List ConflictExample → ConflictExample)
    (base : ConflictExample) (donors : List ConflictExample) (jmin jmax : ℚ)
    (o : Oracles) (cfg : BuildConfig) (nb : List ConflictExample) :
    (∀ donor, donor ∈ hardSwapCandidates base donors jmin jmax ↔
      donor ∈ donors ∧ donor.base_id ≠ base.base_id ∧
      donor.source_image_id.getD "" ≠ base.source_image_id.getD "" ∧
      jmin ≤ jaccard_tokens (noun_like_tokens base.text_input)
        (noun_like_tokens donor.text_input) ∧
      jaccard_tokens (noun_like_tokens base.text_input)
        (noun_like_tokens donor.text_input) ≤ jmax) ∧
    (hardSwapCandidates base donors jmin jmax = [] →
      hard_swap_candidate chooseEx base donors jmin jmax = Option.none) ∧
    (nb.filter (fun d => !(decide (d.base_id = base.base_id))) ≠ [] →
      hardSwapCandidates base
        (nb.filter (fun d => decide (d.family = base.family)
          && decide (d.answer_type = base.answer_type)))
        cfg.hard_swap_jaccard_min cfg.hard_swap_jaccard_max = [] →
      (variantsFor o cfg nb base)[2]? = some (caption_swap base
        (o.chooseEx (nb.filter
          (fun d => !(decide (d.base_id = base.base_id))))).text_input
        Operator.swap_hard false cfg.seed) ∧
      ∀ t s, (caption_swap base t Operator.swap_hard false s).hard_swap_flag
        = false) := by
  refine ⟨?_, ?_, ?_⟩
  · intro donor
    unfold hardSwapCandidates
    rw [List.mem_filter]
    simp only [Bool.and_eq_true, Bool.not_eq_true', decide_eq_false_iff_not,
      decide_eq_true_eq]
    tauto
  · intro hempty
    unfold hard_swap_candidate
    rw [hempty]
    rfl
  · intro hpool hcand
    constructor
    · have hne : ¬((nb.filter
          (fun d => !(decide (d.base_id = base.base_id)))).isEmpty = true) := by
        simpa [List.isEmpty_iff] using hpool
      simp only [variantsFor, hard_swap_candidate]
      rw [hcand]
      simp only [List.isEmpty_nil, if_true, if_neg hne]
      rfl
    · intro t s
      rfl

/-- Witness for `hard_swap_band_and_fallback`: for the base `baseB1` in the
two-base suite the donor bucket contains only the base itself, so the donor
search comes up empty and the emitted hard-swap row is the easy-swap donor's
text with the flag cleared. -/
theorem hard_swap_band_and_fallback_witness :
    ([baseB1, baseB2].filter
        (fun d => !(decide (d.base_id = baseB1.base_id))) ≠ []) ∧
    hardSwapCandidates baseB1
      ([baseB1, baseB2].filter (fun d => decide (d.family = baseB1.family)
        && decide (d.answer_type = baseB1.answer_type)))
      defaultConfig.hard_swap_jaccard_min defaultConfig.hard_swap_jaccard_max
      = [] ∧
    ((variantsFor idOracles defaultConfig [baseB1, baseB2] baseB1)[2]?
      = some (caption_swap baseB1
        (idOracles.chooseEx ([baseB1, baseB2].filter
          (fun d => !(decide (d.base_id = baseB1.base_id))))).text_input
        Operator.swap_hard false defaultConfig.seed) ∧
    ∀ t s, (caption_swap baseB1 t Operator.swap_hard false s).hard_swap_flag
      = false) := by
  refine ⟨by decide, by decide, ?_⟩
  exact (hard_swap_band_and_fallback idOracles.chooseEx baseB1 [] (1/5) (7/10)
    idOracles defaultConfig [baseB1, baseB2]).2.2 (by decide) (by decide)

/-! ## Lemmas about the pilot sampler -/

theorem pyDedup_foldl_facts {α : Type} [DecidableEq α] :
    ∀ (l acc : List α), acc.Nodup →
      (l.foldl (fun acc x => if x ∈ acc then acc else x :: acc) acc).Nodup ∧
      ∀ a, a ∈ l.foldl (fun acc x => if x ∈ acc then acc else x :: acc) acc ↔
        (a ∈ acc ∨ a ∈ l) := by
  intro l
  induction l with
  | nil =>
    intro acc h
    exact ⟨h, by simp⟩
  | cons x xs ih =>
    intro acc hacc
    simp only [List.foldl_cons]
    by_cases hx : x ∈ acc
    · rw [if_pos hx]
      obtain ⟨h1, h2⟩ := ih acc hacc
      refine ⟨h1, fun a => ?_⟩
      rw [h2 a]
      simp only [List.mem_cons]
      constructor
      · rintro (h | h)
        · exact Or.inl h
        · exact Or.inr (Or.inr h)
      · rintro (h | rfl | h)
        · exact Or.inl h
        · exact Or.inl hx
        · exact Or.inr h
    · rw [if_neg hx]
      obtain ⟨h1, h2⟩ := ih (x :: acc) (List.nodup_cons.mpr ⟨hx, hacc⟩)
      refine ⟨h1, fun a => ?_⟩
      rw [h2 a]
      simp only [List.mem_cons]
      tauto

theorem pyDedup_nodup {α : Type} [DecidableEq α] (l : List α) :
    (pyDedup l).Nodup := by
  unfold pyDedup
  rw [List.nodup_reverse]
  exact (pyDedup_foldl_facts l [] List.nodup_nil).1

theorem mem_pyDedup {α : Type} [DecidableEq α] {l : List α} {a : α} :
    a ∈ pyDedup l ↔ a ∈ l := by
  unfold pyDedup
  rw [List.mem_reverse]
  have := (pyDedup_foldl_facts l [] List.nodup_nil).2 a
  simpa using this

theorem sum_map_add_split {α : Type} (l : List α) (f g : α → Nat) :
    (l.map (fun x => f x + g x)).sum = (l.map f).sum + (l.map g).sum := by
  induction l with
  | nil => rfl
  | cons x xs ih =>
    simp only [List.map_cons, List.sum_cons, ih]
    omega

theorem sum_map_ite_one {α : Type} (l : List α) (q : α → Bool) :
    (l.map (fun x => if q x then 1 else 0)).sum = (l.filter q).length := by
  induction l with
  | nil => rfl
  | cons x xs ih =>
    by_cases h : q x <;>
      simp [List.filter_cons, h, ih] <;> omega

theorem sum_map_sub_of_le {α : Type} (l : List α) (f g : α → Nat)
    (h : ∀ x ∈ l, g x ≤ f x) :
    (l.map g).sum ≤ (l.map f).sum ∧
    (l.map (fun x => f x - g x)).sum = (l.map f).sum - (l.map g).sum := by
  induction l with
  | nil => simp
  | cons x xs ih =>
    obtain ⟨ih1, ih2⟩ := ih (fun y hy => h y (List.mem_cons_of_mem _ hy))
    have hx := h x (List.mem_cons_self _ _)
    simp only [List.map_cons, List.sum_cons, ih2]
    omega

theorem find?_eq_of_keys_nodup {K β : Type} [DecidableEq K] :
    ∀ (l : List (K × β)) (p : K × β), p ∈ l → (l.map Prod.fst).Nodup →
      l.find? (fun r => r.1 = p.1) = some p := by
  intro l
  induction l with
  | nil =>
    intro p hp
    simp at hp
  | cons q rest ih =>
    intro p hp hnd
    rcases List.mem_cons.mp hp with rfl | hp2
    · rw [List.find?_cons_of_pos _ (by simp)]
    · have hne : ¬(q.1 = p.1) := by
        intro he
        have hmem : p.1 ∈ rest.map Prod.fst := List.mem_map.mpr ⟨p, hp2, rfl⟩
        rw [← he] at hmem
        simp only [List.map_cons, List.nodup_cons] at hnd
        exact hnd.1 hmem
      rw [List.find?_cons_of_neg _ (by simp [hne])]
      have hnd2 : (rest.map Prod.fst).Nodup := by
        simp only [List.map_cons, List.nodup_cons] at hnd
        exact hnd.2
      exact ih p hp2 hnd2

theorem backfillTakes_cons (d : Nat) (c : (StrataKey × Nat) × Nat)
    (rest : List ((StrataKey × Nat) × Nat)) :
    backfillTakes d (c :: rest) =
      (c.1.1, min (c.1.2 - c.2) d)
        :: backfillTakes (d - min (c.1.2 - c.2) d) rest := rfl

theorem backfillTakes_sum :
    ∀ (l : List ((StrataKey × Nat) × Nat)) (d : Nat),
      ((backfillTakes d l).map (fun q => q.2)).sum
        = min d ((l.map (fun c => c.1.2 - c.2)).sum) := by
  intro l
  induction l with
  | nil =>
    intro d
    simp [backfillTakes]
  | cons c rest ih =>
    intro d
    rw [backfillTakes_cons]
    simp only [List.map_cons, List.sum_cons, ih]
    omega

theorem backfillTakes_lookup :
    ∀ (l : List ((StrataKey × Nat) × Nat)) (d : Nat),
      ((l.map (fun c => c.1.1)).Nodup) →
      (∀ c ∈ l, (((backfillTakes d l).find? (fun q => q.1 = c.1.1)).map
          (fun q => q.2)).getD 0 ≤ c.1.2 - c.2) ∧
      ((l.map (fun c => (((backfillTakes d l).find?
          (fun q => q.1 = c.1.1)).map (fun q => q.2)).getD 0)).sum
        = ((backfillTakes d l).map (fun q => q.2)).sum) := by
  intro l
  induction l with
  | nil =>
    intro d _
    exact ⟨by simp, by simp [backfillTakes]⟩
  | cons c rest ih =>
    intro d hnd
    simp only [List.map_cons, List.nodup_cons] at hnd
    obtain ⟨hc, hrest⟩ := hnd
    obtain ⟨ih1, ih2⟩ := ih (d - min (c.1.2 - c.2) d) hrest
    have hmapeq : rest.map (fun e =>
        (((backfillTakes d (c :: rest)).find? (fun q => q.1 = e.1.1)).map
          (fun q => q.2)).getD 0)
        = rest.map (fun e =>
        (((backfillTakes (d - min (c.1.2 - c.2) d) rest).find?
          (fun q => q.1 = e.1.1)).map (fun q => q.2)).getD 0) := by
      apply List.map_congr_left
      intro e he
      rw [backfillTakes_cons]
      rw [List.find?_cons_of_neg]
      simp only [decide_eq_true_eq]
      intro heq
      exact hc (heq ▸ (List.mem_map.mpr ⟨e, he, rfl⟩))
    constructor
    · intro e he
      rcases List.mem_cons.mp he with rfl | he2
      · rw [backfillTakes_cons, List.find?_cons_of_pos _ (by simp)]
        exact min_le_left _ _
      · have := ih1 e he2
        calc (((backfillTakes d (c :: rest)).find?
              (fun q => q.1 = e.1.1)).map (fun q => q.2)).getD 0
            = (((backfillTakes (d - min (c.1.2 - c.2) d) rest).find?
              (fun q => q.1 = e.1.1)).map (fun q => q.2)).getD 0 := by
              rw [backfillTakes_cons, List.find?_cons_of_neg]
              simp only [decide_eq_true_eq]
              intro heq
              exact hc (heq ▸ (List.mem_map.mpr ⟨e, he2, rfl⟩))
          _ ≤ e.1.2 - e.2 := this
    · simp only [List.map_cons, List.sum_cons]
      rw [hmapeq, ih2, backfillTakes_cons]
      rw [List.find?_cons_of_pos _ (by simp)]
      simp

theorem pyIntOfRat_toNat_le {q : ℚ} (h : 0 ≤ q) :
    (((pyIntOfRat q).toNat : ℕ) : ℚ) ≤ q := by
  unfold pyIntOfRat
  rw [if_neg (not_lt.mpr h)]
  have h1 : (0 : ℤ) ≤ Int.floor q := Int.le_floor.mpr (by exact_mod_cast h)
  have h2 : (Rat.floor q).toNat = (Int.floor q).toNat := rfl
  have h3 : (((Int.floor q).toNat : ℕ) : ℚ) = ((Int.floor q : ℤ) : ℚ) := by
    exact_mod_cast congrArg (fun z : ℤ => (z : ℚ)) (Int.toNat_of_nonneg h1)
  rw [h2, h3]
  exact_mod_cast Int.floor_le q

theorem pyIntOfRat_toNat_eq {q : ℚ} (h : 0 ≤ q) :
    ((pyIntOfRat q).toNat : ℤ) = pyIntOfRat q := by
  unfold pyIntOfRat
  rw [if_neg (not_lt.mpr h)]
  exact Int.toNat_of_nonneg
    (show (0 : ℤ) ≤ Int.floor q from Int.le_floor.mpr (by exact_mod_cast h))

theorem flatMap_congr_of_eq {α β : Type} {l : List α} {f g : α → List β}
    (h : ∀ a ∈ l, f a = g a) : l.flatMap f = l.flatMap g := by
  induction l with
  | nil => rfl
  | cons x xs ih =>
    rw [List.flatMap_cons _ _ _, List.flatMap_cons _ _ _,
      h x (List.mem_cons_self _ _), ih (fun a ha => h a (List.mem_cons_of_mem _ ha))]

theorem perm_flatMap_congr {α β : Type} {l : List α} {f g : α → List β}
    (h : ∀ a ∈ l, List.Perm (f a) (g a)) :
    List.Perm (l.flatMap f) (l.flatMap g) := by
  induction l with
  | nil => exact List.Perm.refl _
  | cons x xs ih =>
    rw [List.flatMap_cons _ _ _, List.flatMap_cons _ _ _]
    exact List.Perm.append (h x (List.mem_cons_self _ _))
      (ih (fun a ha => h a (List.mem_cons_of_mem _ ha)))

theorem sublist_flatMap_congr {α β : Type} {l : List α} {f g : α → List β}
    (h : ∀ a ∈ l, (f a).Sublist (g a)) :
    (l.flatMap f).Sublist (l.flatMap g) := by
  induction l with
  | nil => exact List.Sublist.refl _
  | cons x xs ih =>
    rw [List.flatMap_cons _ _ _, List.flatMap_cons _ _ _]
    exact List.Sublist.append (h x (List.mem_cons_self _ _))
      (ih (fun a ha => h a (List.mem_cons_of_mem _ ha)))

theorem partition_flatMap_perm {α K : Type} [DecidableEq K] (f : α → K) :
    ∀ (l : List α) (ks : List K), ks.Nodup → (∀ x ∈ l, f x ∈ ks) →
      List.Perm (ks.flatMap (fun k => l.filter (fun x => f x = k))) l := by
  intro l
  induction l with
  | nil =>
    intro ks _ _
    simp
  | cons x xs ih =>
    intro ks hnd hmem
    obtain ⟨ks₁, ks₂, hks⟩ := List.append_of_mem (hmem x (List.mem_cons_self _ _))
    subst hks
    rw [List.nodup_append] at hnd
    obtain ⟨hnd1, hnd2, hdisj⟩ := hnd
    have hfx2 : f x ∉ ks₂ := (List.nodup_cons.mp hnd2).1
    have hfx1 : f x ∉ ks₁ := fun hin => hdisj hin (List.mem_cons_self _ _)
    have hF1 : ∀ k ∈ ks₁,
        (x :: xs).filter (fun y => decide (f y = k))
          = xs.filter (fun y => decide (f y = k)) := by
      intro k hk
      have hne : ¬(f x = k) := fun he => hfx1 (he ▸ hk)
      simp only [List.filter_cons, decide_eq_true_eq, if_neg hne]
    have hF2 : ∀ k ∈ ks₂,
        (x :: xs).filter (fun y => decide (f y = k))
          = xs.filter (fun y => decide (f y = k)) := by
      intro k hk
      have hne : ¬(f x = k) := fun he => hfx2 (he ▸ hk)
      simp only [List.filter_cons, decide_eq_true_eq, if_neg hne]
    have hcons : (x :: xs).filter (fun y => decide (f y = f x))
        = x :: xs.filter (fun y => decide (f y = f x)) := by
      simp [List.filter_cons]
    rw [List.flatMap_append _ _ _, List.flatMap_cons _ _ _]
    rw [flatMap_congr_of_eq hF1, flatMap_congr_of_eq hF2, hcons, List.cons_append]
    refine List.Perm.trans List.perm_middle ?_
    have hih := ih (ks₁ ++ f x :: ks₂)
      (by rw [List.nodup_append]; exact ⟨hnd1, hnd2, hdisj⟩)
      (fun y hy => hmem y (List.mem_cons_of_mem _ hy))
    rw [List.flatMap_append _ _ _, List.flatMap_cons _ _ _] at hih
    exact List.Perm.cons x hih

theorem allocate_counts_eq (total : Int) (sizes : List (StrataKey × Nat))
    (hpos : 0 < total) (hn0 : ¬((sizes.map (fun p => p.2)).sum = 0)) :
    allocate_counts total sizes
      = sizes.map (fun p => (p.1, allocValue total sizes p)) := by
  simp only [allocate_counts, allocValue, allocCapped, List.map_map]
  rw [if_neg (not_le.mpr hpos), if_neg hn0]
  rfl

theorem sum_raw_eq (total : Int) (sizes : List (StrataKey × Nat))
    (hn0 : (sizes.map (fun p => p.2)).sum ≠ 0) :
    (sizes.map (fun p =>
        ((p.2 : ℚ) / (((sizes.map (fun q => q.2)).sum : Nat) : ℚ)) * (total : ℚ))).sum
      = (total : ℚ) := by
  have hN0 : ((((sizes.map (fun q => q.2)).sum : Nat)) : ℚ) ≠ 0 := by
    exact_mod_cast hn0
  have h1 : sizes.map (fun p =>
        ((p.2 : ℚ) / (((sizes.map (fun q => q.2)).sum : Nat) : ℚ)) * (total : ℚ))
      = sizes.map (fun p =>
        (p.2 : ℚ) * ((total : ℚ) / (((sizes.map (fun q => q.2)).sum : Nat) : ℚ))) := by
    apply List.map_congr_left
    intro p _
    rw [div_mul_eq_mul_div, mul_div_assoc]
  rw [h1, List.sum_map_mul_right]
  have h2 : (sizes.map (fun p => ((p.2 : Nat) : ℚ))).sum
      = ((((sizes.map (fun q => q.2)).sum : Nat)) : ℚ) := by
    rw [Nat.cast_list_sum, List.map_map]
    rfl
  rw [h2, mul_comm]
  exact div_mul_cancel₀ _ hN0

theorem sum_cnt_le_total (total : Int) (sizes : List (StrataKey × Nat))
    (hpos : 0 < total) (hn0 : (sizes.map (fun p => p.2)).sum ≠ 0) :
    (((sizes.map (fun p =>
        cntValue total ((sizes.map (fun q => q.2)).sum) p)).sum : Nat) : Int)
      ≤ total := by
  have ht : (0 : ℚ) ≤ (total : ℚ) := by exact_mod_cast le_of_lt hpos
  have hq : (((sizes.map (fun p =>
      cntValue total ((sizes.map (fun q => q.2)).sum) p)).sum : Nat) : ℚ)
      ≤ (total : ℚ) := by
    rw [Nat.cast_list_sum, List.map_map]
    refine le_of_le_of_eq (List.sum_le_sum ?_) (sum_raw_eq total sizes hn0)
    intro p _
    exact pyIntOfRat_toNat_le
      (mul_nonneg (div_nonneg (by positivity) (by positivity)) ht)
  have hmp : ∀ {m n : ℤ}, ((m : ℚ) ≤ (n : ℚ)) → m ≤ n := fun h => Int.cast_le.mp h
  refine hmp ?_
  rw [Int.cast_natCast]
  exact hq

theorem sum_capped_le_total (total : Int) (sizes : List (StrataKey × Nat))
    (hnd : (sizes.map Prod.fst).Nodup) (hpos : 0 < total)
    (hn0 : (sizes.map (fun p => p.2)).sum ≠ 0) :
    (((sizes.map (fun p =>
        cappedValue total ((sizes.map (fun q => q.2)).sum) sizes p)).sum : Nat) : Int)
      ≤ total := by
  set N : Nat := (sizes.map (fun q => q.2)).sum with hN
  have h1 : (sizes.map (fun p => cappedValue total N sizes p)).sum
      ≤ (sizes.map (fun p => if p.1 ∈ allocBump total N sizes
          then cntValue total N p + 1 else cntValue total N p)).sum :=
    List.sum_le_sum (fun p _ => min_le_left _ _)
  have h2 : (sizes.map (fun p => if p.1 ∈ allocBump total N sizes
        then cntValue total N p + 1 else cntValue total N p)).sum
      = (sizes.map (fun p => cntValue total N p)).sum
        + (sizes.filter (fun p =>
            decide (p.1 ∈ allocBump total N sizes))).length := by
    have hpt : sizes.map (fun p => if p.1 ∈ allocBump total N sizes
          then cntValue total N p + 1 else cntValue total N p)
        = sizes.map (fun p => cntValue total N p
            + (if decide (p.1 ∈ allocBump total N sizes) then 1 else 0)) := by
      apply List.map_congr_left
      intro p _
      by_cases hp : p.1 ∈ allocBump total N sizes
      · simp [hp]
      · simp [hp]
    rw [hpt, sum_map_add_split, sum_map_ite_one]
  have h3 : (sizes.filter (fun p =>
        decide (p.1 ∈ allocBump total N sizes))).length
      ≤ (allocBump total N sizes).length := by
    have hndf : ((sizes.filter (fun p =>
        decide (p.1 ∈ allocBump total N sizes))).map Prod.fst).Nodup :=
      List.Nodup.sublist (List.Sublist.map _ (List.filter_sublist _)) hnd
    have hsub : ∀ a ∈ (sizes.filter (fun p =>
        decide (p.1 ∈ allocBump total N sizes))).map Prod.fst,
        a ∈ allocBump total N sizes := by
      intro a ha
      obtain ⟨p, hp, rfl⟩ := List.mem_map.mp ha
      exact of_decide_eq_true (List.mem_filter.mp hp).2
    calc (sizes.filter (fun p =>
            decide (p.1 ∈ allocBump total N sizes))).length
        = ((sizes.filter (fun p =>
            decide (p.1 ∈ allocBump total N sizes))).map Prod.fst).length :=
          (List.length_map _ _).symm
      _ = ((sizes.filter (fun p =>
            decide (p.1 ∈ allocBump total N sizes))).map Prod.fst).toFinset.card :=
          (List.toFinset_card_of_nodup hndf).symm
      _ ≤ (allocBump total N sizes).toFinset.card :=
          Finset.card_le_card (fun a ha =>
            List.mem_toFinset.mpr (hsub a (List.mem_toFinset.mp ha)))
      _ ≤ (allocBump total N sizes).length := List.toFinset_card_le _
  have h4 : (allocBump total N sizes).length
      ≤ (max 0 (total
          - (((sizes.map (fun p => cntValue total N p)).sum : Nat) : Int))).toNat := by
    simp only [allocBump, allocBase0, List.length_map, List.length_take,
      List.map_map, Function.comp]
    exact min_le_left _ _
  have hc := sum_cnt_le_total total sizes hpos hn0
  rw [← hN] at hc
  omega

theorem allocValue_facts (total : Int) (sizes : List (StrataKey × Nat))
    (hnd : (sizes.map Prod.fst).Nodup) (hpos : 0 < total)
    (hle : total ≤ (((sizes.map (fun p => p.2)).sum : Nat) : Int)) :
    (∀ p ∈ sizes, allocValue total sizes p ≤ p.2) ∧
    ((((sizes.map (fun p => allocValue total sizes p)).sum : Nat) : Int) = total) := by
  have hn0 : (sizes.map (fun p => p.2)).sum ≠ 0 := by
    intro h0
    rw [h0] at hle
    simp at hle
    omega
  set N : Nat := (sizes.map (fun q => q.2)).sum with hN
  have hNle : total ≤ (N : Int) := hle
  have hcapped : allocCapped total N sizes
      = sizes.map (fun p => (p, cappedValue total N sizes p)) := rfl
  set sorted := sortBy (fun a b => decide (b.1.2 ≤ a.1.2))
    (allocCapped total N sizes) with hsorted
  have hperm : List.Perm sorted (allocCapped total N sizes) := sortBy_perm _ _
  set A2 : Nat := ((allocCapped total N sizes).map (fun q => q.2)).sum with hA2
  set deficit : Nat := (max 0 (total - (A2 : Int))).toNat with hdef
  set takes := backfillTakes deficit sorted with htakes
  have hndsorted : (sorted.map (fun c => c.1.1)).Nodup := by
    have hp1 : List.Perm (sorted.map (fun c => c.1.1))
        ((allocCapped total N sizes).map (fun c => c.1.1)) := hperm.map _
    rw [hp1.nodup_iff]
    have he : (allocCapped total N sizes).map (fun c => c.1.1)
        = sizes.map Prod.fst := by
      rw [hcapped, List.map_map]
      rfl
    rw [he]
    exact hnd
  have hval : ∀ p, allocValue total sizes p
      = cappedValue total N sizes p
        + ((takes.find? (fun q => q.1 = p.1)).map (fun q => q.2)).getD 0 :=
    fun p => rfl
  have hA2eq : A2 = (sizes.map (fun p => cappedValue total N sizes p)).sum := by
    rw [hA2, hcapped, List.map_map]
    rfl
  have hA2le : (A2 : Int) ≤ total := by
    rw [hA2eq]
    have := sum_capped_le_total total sizes hnd hpos hn0
    rw [← hN] at this
    exact this
  -- the backfill lookup facts over the sorted list
  obtain ⟨hlk1, hlk2⟩ := backfillTakes_lookup sorted deficit hndsorted
  rw [← htakes] at hlk1 hlk2
  -- sum of rooms over the sorted list
  have hrooms : (sorted.map (fun c => c.1.2 - c.2)).sum = N - A2 := by
    rw [(hperm.map (fun c => c.1.2 - c.2)).sum_eq, hcapped, List.map_map]
    have h6 := (sum_map_sub_of_le sizes (fun p => p.2)
      (fun p => cappedValue total N sizes p)
      (fun p _ => min_le_right _ _)).2
    have halign : sizes.map ((fun c => c.1.2 - c.2)
          ∘ (fun p => (p, cappedValue total N sizes p)))
        = sizes.map (fun p => p.2 - cappedValue total N sizes p) := rfl
    rw [halign, h6, ← hN, hA2eq]
  -- sum of the lookups over sizes equals the sum of the takes
  have hlksum : (sizes.map (fun p =>
        ((takes.find? (fun q => q.1 = p.1)).map (fun q => q.2)).getD 0)).sum
      = (takes.map (fun q => q.2)).sum := by
    have h3 : sizes.map (fun p =>
          ((takes.find? (fun q => q.1 = p.1)).map (fun q => q.2)).getD 0)
        = (allocCapped total N sizes).map (fun c =>
          ((takes.find? (fun q => q.1 = c.1.1)).map (fun q => q.2)).getD 0) := by
      rw [hcapped, List.map_map]
      rfl
    rw [h3, ((hperm.map (fun c =>
      ((takes.find? (fun q => q.1 = c.1.1)).map (fun q => q.2)).getD 0)).sum_eq).symm]
    exact hlk2
  have htsum : (takes.map (fun q => q.2)).sum
      = min deficit ((sorted.map (fun c => c.1.2 - c.2)).sum) := by
    rw [htakes]
    exact backfillTakes_sum sorted deficit
  -- part 1: per-entry bound
  have hpart1 : ∀ p ∈ sizes, allocValue total sizes p ≤ p.2 := by
    intro p hp
    rw [hval p]
    have hmem : (p, cappedValue total N sizes p) ∈ sorted := by
      rw [hsorted]
      exact mem_sortBy.mpr (by rw [hcapped]; exact List.mem_map.mpr ⟨p, hp, rfl⟩)
    have hb := hlk1 (p, cappedValue total N sizes p) hmem
    dsimp only at hb
    have h7 : cappedValue total N sizes p ≤ p.2 := min_le_right _ _
    omega
  refine ⟨hpart1, ?_⟩
  -- part 2: the total is hit exactly
  have hmc : sizes.map (fun p => allocValue total sizes p)
      = sizes.map (fun p => cappedValue total N sizes p
          + ((takes.find? (fun q => q.1 = p.1)).map (fun q => q.2)).getD 0) :=
    List.map_congr_left (fun p _ => hval p)
  rw [hmc, sum_map_add_split, hlksum, htsum, hrooms, ← hA2eq]
  omega

/-! ## Claim C7 -/

set_option maxHeartbeats 1000000 in
/-- C7: for every input list of examples, every seed (the per-stratum seeded
shuffle is any permutation oracle), and every `base_sample_size` k > 0,
`sample_pilot_by_base` returns a subset of the input whose rows span exactly
`min(k, number of distinct base_id groups)` distinct `base_id` values, and
groups are never split: for each selected row, every input example sharing
its `base_id` is also in the output. -/
theorem sample_pilot_by_base_groups (shuffle : List String → List String)
    (examples : List ConflictExample) (k seed : Int)
    (hsh : ∀ l, List.Perm (shuffle l) l) (hk : 0 < k) :
    (((sample_pilot_by_base shuffle examples k seed).1.map
        (fun ex => ex.base_id)).toFinset.card
      = (min k ((baseIds examples).length : Int)).toNat) ∧
    (∀ ex ∈ (sample_pilot_by_base shuffle examples k seed).1, ex ∈ examples) ∧
    (∀ ex ∈ examples, ∀ ex2 ∈ (sample_pilot_by_base shuffle examples k seed).1,
      ex.base_id = ex2.base_id →
        ex ∈ (sample_pilot_by_base shuffle examples k seed).1) := by
  have hknot : ¬(k ≤ 0) := not_le.mpr hk
  set grouped := groupByBase examples with hgrouped
  set reps := grouped.map (fun p => (p.1, representative p.2)) with hreps
  set sKeys := pyDedup (reps.map (fun p => repKey p.2)) with hsKeys
  set strata := sKeys.map (fun c =>
    (c, sortStrings ((reps.filter (fun p => repKey p.2 = c)).map
      (fun p => p.1)))) with hstrata
  set sizes := strata.map (fun p => (p.1, p.2.length)) with hsizes
  set total := min k ((grouped.length : Int)) with htotal
  set alloc := allocate_counts total sizes with halloc
  set SBI := strata.flatMap (fun p =>
    (shuffle p.2).take
      (((alloc.find? (fun q => q.1 = p.1)).map (fun q => q.2)).getD 0)) with hSBI
  set SEL := sortBy (fun a b => strLe a.example_id b.example_id)
    (examples.filter (fun ex => ex.base_id ∈ SBI)) with hSEL
  have hres : (sample_pilot_by_base shuffle examples k seed).1 = SEL := by
    simp only [sample_pilot_by_base]
    rw [if_neg hknot]
  rw [hres]
  by_cases hg : grouped.length = 0
  · -- no groups at all: everything is empty
    have hgnil : grouped = [] := List.length_eq_zero.mp hg
    have hbnil : baseIds examples = [] := by
      have h1 : groupByBase examples = [] := by rw [← hgrouped]; exact hgnil
      simp only [groupByBase] at h1
      exact List.map_eq_nil_iff.mp h1
    have hSBInil : SBI = [] := by
      rw [hSBI, hstrata, hsKeys, hreps, hgnil]
      rfl
    have hSELnil : SEL = [] := by
      rw [hSEL, hSBInil]
      have hf : examples.filter
          (fun ex => decide (ex.base_id ∈ ([] : List String))) = [] :=
        List.filter_eq_nil_iff.mpr (fun a _ hpa => by simp at hpa)
      rw [hf]
      rfl
    rw [hSELnil]
    refine ⟨?_, ?_, ?_⟩
    · rw [hbnil]
      simp
      omega
    · simp
    · intro ex hex ex2 hex2 hb
      simp at hex2
  · -- at least one group
    have hsizesnd : (sizes.map Prod.fst).Nodup := by
      have he : sizes.map Prod.fst = sKeys := by
        rw [hsizes, hstrata, List.map_map, List.map_map]
        exact (List.map_congr_left (fun c _ => rfl)).trans (List.map_id _)
      rw [he, hsKeys]
      exact pyDedup_nodup _
    have hcover : ∀ p ∈ reps, repKey p.2 ∈ sKeys := by
      intro p hp
      rw [hsKeys]
      exact mem_pyDedup.mpr (List.mem_map.mpr ⟨p, hp, rfl⟩)
    have hpart := partition_flatMap_perm (fun p => repKey p.2) reps sKeys
      (by rw [hsKeys]; exact pyDedup_nodup _) hcover
    have hflat : List.Perm (strata.flatMap (fun p => p.2)) (baseIds examples) := by
      have ha : strata.flatMap (fun p => p.2)
          = sKeys.flatMap (fun c => sortStrings ((reps.filter
              (fun p => repKey p.2 = c)).map (fun p => p.1))) := by
        rw [hstrata, List.flatMap_map _ _ _]
      have hb : List.Perm
          (sKeys.flatMap (fun c => sortStrings ((reps.filter
            (fun p => repKey p.2 = c)).map (fun p => p.1))))
          (sKeys.flatMap (fun c => (reps.filter
            (fun p => repKey p.2 = c)).map (fun p => p.1))) :=
        perm_flatMap_congr (fun c _ => sortBy_perm _ _)
      have hc : sKeys.flatMap (fun c => (reps.filter
            (fun p => repKey p.2 = c)).map (fun p => p.1))
          = (sKeys.flatMap (fun c => reps.filter
              (fun p => repKey p.2 = c))).map (fun p => p.1) :=
        (List.map_flatMap _ _ _).symm
      have hd : List.Perm ((sKeys.flatMap (fun c => reps.filter
          (fun p => repKey p.2 = c))).map (fun p => p.1))
          (reps.map (fun p => p.1)) := hpart.map _
      have he2 : reps.map (fun p => p.1) = baseIds examples := by
        rw [hreps, hgrouped, List.map_map]
        simp only [groupByBase, List.map_map]
        exact (List.map_congr_left (fun c _ => rfl)).trans (List.map_id _)
      rw [ha]
      refine hb.trans ?_
      rw [hc]
      refine hd.trans ?_
      rw [he2]
    have hflatnd : (strata.flatMap (fun p => p.2)).Nodup :=
      hflat.nodup_iff.mpr (pyDedup_nodup _)
    have hsum : (sizes.map (fun p => p.2)).sum = grouped.length := by
      have h1 : (sizes.map (fun p => p.2)).sum
          = (strata.map (fun p => p.2.length)).sum := by
        rw [hsizes, List.map_map]
        rfl
      have h2 : (strata.map (fun p => p.2.length)).sum
          = (strata.flatMap (fun p => p.2)).length := (List.length_flatMap _ _).symm
      rw [h1, h2, hflat.length_eq]
      rw [hgrouped]
      simp [groupByBase]
    have hn0 : (sizes.map (fun p => p.2)).sum ≠ 0 := by rw [hsum]; exact hg
    have htotpos : 0 < total := by
      rw [htotal]
      exact lt_min hk (by exact_mod_cast Nat.pos_of_ne_zero hg)
    have htotle : total ≤ (((sizes.map (fun p => p.2)).sum : Nat) : Int) := by
      rw [hsum, htotal]
      exact min_le_right _ _
    obtain ⟨hvle, hvsum⟩ := allocValue_facts total sizes hsizesnd htotpos htotle
    have halloceq : alloc = sizes.map (fun p => (p.1, allocValue total sizes p)) := by
      rw [halloc]
      exact allocate_counts_eq total sizes htotpos hn0
    have hndalloc : (alloc.map Prod.fst).Nodup := by
      rw [halloceq, List.map_map]
      exact hsizesnd
    have hlookup : ∀ p ∈ strata,
        ((alloc.find? (fun q => q.1 = p.1)).map (fun q => q.2)).getD 0
          = allocValue total sizes (p.1, p.2.length) := by
      intro p hp
      have hq : (p.1, p.2.length) ∈ sizes := by
        rw [hsizes]
        exact List.mem_map.mpr ⟨p, hp, rfl⟩
      have hmm : (p.1, allocValue total sizes (p.1, p.2.length)) ∈ alloc := by
        rw [halloceq]
        exact List.mem_map.mpr ⟨(p.1, p.2.length), hq, rfl⟩
      have hfind : alloc.find? (fun q => q.1 = p.1)
          = some (p.1, allocValue total sizes (p.1, p.2.length)) :=
        find?_eq_of_keys_nodup alloc
          (p.1, allocValue total sizes (p.1, p.2.length)) hmm hndalloc
      rw [hfind]
      rfl
    have hSBI2 : SBI = strata.flatMap (fun p =>
        (shuffle p.2).take (allocValue total sizes (p.1, p.2.length))) := by
      rw [hSBI]
      exact flatMap_congr_of_eq (fun p hp => by rw [hlookup p hp])
    have hvle2 : ∀ p ∈ strata,
        allocValue total sizes (p.1, p.2.length) ≤ p.2.length := by
      intro p hp
      have hq : (p.1, p.2.length) ∈ sizes := by
        rw [hsizes]
        exact List.mem_map.mpr ⟨p, hp, rfl⟩
      exact hvle _ hq
    have hlenSBI : SBI.length = total.toNat := by
      rw [hSBI2, List.length_flatMap _ _]
      have hpt : strata.map (List.length ∘ fun p =>
            (shuffle p.2).take (allocValue total sizes (p.1, p.2.length)))
          = strata.map (fun p => allocValue total sizes (p.1, p.2.length)) := by
        apply List.map_congr_left
        intro p hp
        dsimp only [Function.comp]
        rw [List.length_take _ _, (hsh p.2).length_eq]
        exact min_eq_left (hvle2 p hp)
      rw [hpt]
      have hsz : strata.map (fun p => allocValue total sizes (p.1, p.2.length))
          = sizes.map (fun p => allocValue total sizes p) := by
        conv_rhs => rw [hsizes, List.map_map]
        rfl
      rw [hsz]
      omega
    have hperm_shuf : List.Perm (strata.flatMap (fun p => shuffle p.2))
        (strata.flatMap (fun p => p.2)) :=
      perm_flatMap_congr (fun p _ => hsh p.2)
    have hsl : SBI.Sublist (strata.flatMap (fun p => shuffle p.2)) := by
      rw [hSBI2]
      exact sublist_flatMap_congr (fun p _ => List.take_sublist _ _)
    have hndSBI : SBI.Nodup :=
      List.Nodup.sublist hsl (hperm_shuf.nodup_iff.mpr hflatnd)
    have hsubSBI : ∀ b ∈ SBI, b ∈ baseIds examples := fun b hb =>
      hflat.subset (hperm_shuf.subset (hsl.subset hb))
    refine ⟨?_, ?_, ?_⟩
    · have hsetEq : (SEL.map (fun ex => ex.base_id)).toFinset = SBI.toFinset := by
        apply Finset.ext
        intro b
        simp only [List.mem_toFinset]
        constructor
        · intro hbm
          obtain ⟨ex, hex, rfl⟩ := List.mem_map.mp hbm
          rw [hSEL] at hex
          exact of_decide_eq_true (List.mem_filter.mp (mem_sortBy.mp hex)).2
        · intro hbS
          have hbib : b ∈ examples.map (fun ex => ex.base_id) :=
            mem_pyDedup.mp (show b ∈ pyDedup (examples.map (fun ex => ex.base_id))
              from hsubSBI b hbS)
          obtain ⟨ex, hex, hexb⟩ := List.mem_map.mp hbib
          have hexSEL : ex ∈ SEL := by
            rw [hSEL]
            refine mem_sortBy.mpr (List.mem_filter.mpr ⟨hex, ?_⟩)
            rw [hexb]
            exact decide_eq_true hbS
          exact List.mem_map.mpr ⟨ex, hexSEL, hexb⟩
      rw [hsetEq, List.toFinset_card_of_nodup hndSBI, hlenSBI]
      have hglen : (baseIds examples).length = grouped.length := by
        rw [hgrouped]
        simp [groupByBase]
      rw [hglen, htotal]
    · intro ex hex
      rw [hSEL] at hex
      exact (List.mem_filter.mp (mem_sortBy.mp hex)).1
    · intro ex hex ex2 hex2 heq2
      rw [hSEL] at hex2 ⊢
      have h2 := of_decide_eq_true (List.mem_filter.mp (mem_sortBy.mp hex2)).2
      refine mem_sortBy.mpr (List.mem_filter.mpr ⟨hex, ?_⟩)
      rw [heq2]
      exact decide_eq_true h2

theorem sample_pilot_by_base_groups_witness :
    (0 : Int) < 2 ∧
    ((((sample_pilot_by_base id [baseB1, baseB2] 2 7).1.map
        (fun ex => ex.base_id)).toFinset.card
      = (min 2 ((baseIds [baseB1, baseB2]).length : Int)).toNat) ∧
    (∀ ex ∈ (sample_pilot_by_base id [baseB1, baseB2] 2 7).1,
      ex ∈ [baseB1, baseB2]) ∧
    (∀ ex ∈ [baseB1, baseB2],
      ∀ ex2 ∈ (sample_pilot_by_base id [baseB1, baseB2] 2 7).1,
      ex.base_id = ex2.base_id →
        ex ∈ (sample_pilot_by_base id [baseB1, baseB2] 2 7).1)) :=
  ⟨by decide, sample_pilot_by_base_groups id [baseB1, baseB2] 2 7
      (fun l => List.Perm.refl l) (by decide)⟩

end Carm
